import Mathlib

/-!
# Verification of the VFSS swallowing-analysis numeric pipeline

A shallow embedding, over exact rationals, of the numeric core of
`src/App.tsx`: the Savitzky-Golay-style smoothing filter, the
normalisation/standardisation pipeline (`processAdvancedData`), the swallow
cycle detector (`detectSwallowingCycles`) and the per-cycle clinical
parameter extraction (`extractCycleParameters`).

Modelling conventions:

* JavaScript numbers are modelled as `ℚ`.  A value that the source may hold
  as `null` is an `Option`.  The smoothed distance series can additionally
  hold `NaN` (an out-of-range array read, `undefined`, multiplied by a
  number): those values are modelled by `JNum`, whose `nan` constructor
  propagates through arithmetic and makes every comparison false, exactly
  like the IEEE `NaN` the source produces.
* `Math.exp` (the Gaussian smoothing weight) and `Math.sqrt` are
  transcendental/irrational, so the embedding takes them as function
  parameters `w : ℤ → ℚ` and `sqrtQ : ℚ → ℚ`; theorems either hold for
  every such function or assume only the defining properties of the real
  function at the points where it is used (`0 ≤ sqrtQ x`, `sqrtQ x ^ 2 = x`).
* Out-of-range JavaScript array reads yield `undefined`; every comparison
  with `undefined` is false, which is the behaviour of `JNum.nan`, so reads
  of the `JNum` series use `nan` as the default.  Reads of plain `ℚ` series
  use default `0` at indices the source's own bound checks make unreachable,
  and carry an explicit bound check where the source relies on
  `undefined`-comparisons being false.
-/

/- Batteries marks the `Rat` field operations `@[irreducible]`; restore the
default reducibility so that concrete witnesses evaluate with `decide`. -/
set_option allowUnsafeReducibility true
attribute [local semireducible] Rat.add Rat.mul Rat.inv Rat.sub Rat.div

namespace VFSS

/-- A JavaScript number that may be `NaN`.  Arithmetic propagates `nan`
and every comparison involving `nan` is false, as for IEEE `NaN`. -/
inductive JNum where
  | num (q : ℚ)
  | nan
deriving DecidableEq, Repr, Inhabited

namespace JNum

def add : JNum → JNum → JNum
  | num a, num b => num (a + b)
  | _, _ => nan

def sub : JNum → JNum → JNum
  | num a, num b => num (a - b)
  | _, _ => nan

def div : JNum → JNum → JNum
  | num a, num b => num (a / b)
  | _, _ => nan

/-- `Math.pow(x, 2)`. -/
def sq : JNum → JNum
  | num a => num (a ^ 2)
  | nan => nan

/-- `a < b` as JavaScript evaluates it: false whenever `NaN` is involved. -/
def lt : JNum → JNum → Bool
  | num a, num b => decide (a < b)
  | _, _ => false

/-- `a > b` as JavaScript evaluates it: false whenever `NaN` is involved. -/
def gt : JNum → JNum → Bool
  | num a, num b => decide (b < a)
  | _, _ => false

/-- Comparison with a rational constant, `x < c`. -/
def ltq (x : JNum) (c : ℚ) : Bool := x.lt (num c)

/-- Comparison with a rational constant, `x > c`. -/
def gtq (x : JNum) (c : ℚ) : Bool := x.gt (num c)

/-- `Math.sqrt`, with the real square root supplied as `sqrtQ`;
`Math.sqrt` of a negative number (or of `NaN`) is `NaN`. -/
def sqrtJ (sqrtQ : ℚ → ℚ) : JNum → JNum
  | num a => if a < 0 then nan else num (sqrtQ a)
  | nan => nan

/-- `true` exactly on `num` values. -/
def isNum : JNum → Bool
  | num _ => true
  | nan => false

end JNum

/-- The rational payloads of a list of JavaScript numbers (`NaN`s dropped). -/
def jnumsQ (l : List JNum) : List ℚ :=
  l.filterMap fun x => match x with | .num q => some q | .nan => none

/-- Read a `JNum` series the JavaScript way: an out-of-range index yields a
value every comparison rejects (`undefined` behaves like `NaN` here). -/
def jget (l : List JNum) (i : ℕ) : JNum := l.getD i .nan

/-- First differences of a rational series:
`diff[i] = data[i+1] - data[i]`. -/
def diffQ (l : List ℚ) : List ℚ :=
  (l.zip l.tail).map fun p => p.2 - p.1

/-- First differences of a `JNum` series. -/
def jdiff (l : List JNum) : List JNum :=
  (l.zip l.tail).map fun p => p.2.sub p.1

/-- `Math.min(...l)` for a non-empty list (`0` for the empty list, which the
source never passes). -/
def minOfList : List ℚ → ℚ
  | [] => 0
  | x :: xs => xs.foldl min x

/-- `Math.max(...l)` for a non-empty list (`0` for the empty list, which the
source never passes). -/
def maxOfList : List ℚ → ℚ
  | [] => 0
  | x :: xs => xs.foldl max x

/-- `Math.abs`, kernel-reducible (`|q|` through the order instances is
not). -/
def absQ (q : ℚ) : ℚ := if q < 0 then -q else q

lemma absQ_eq_abs (q : ℚ) : absQ q = |q| := by
  unfold absQ
  split_ifs with h
  · exact (abs_of_neg h).symm
  · exact (abs_of_nonneg (not_lt.1 h)).symm

/-- The descending index list `[start, start - 1, ..., lo]`
(empty when `start < lo`), for the source's `for (i = start; i >= lo; i--)`
loops; `start` is an integer because the source forms it as `maxIndex - 1`,
which can be `-1`. -/
def downFrom (start : ℤ) (lo : ℕ) : List ℕ :=
  if start < lo then [] else (List.range' lo ((start - lo).toNat + 1)).reverse

/-- The ascending index list `[start, ..., hi]` (empty when `hi < start`),
for the source's `for (i = start; i <= hi; i++)` loops; `hi` is an integer
because the source forms it by subtraction. -/
def upTo (start : ℕ) (hi : ℤ) : List ℕ :=
  if hi < start then [] else List.range' start ((hi - start).toNat + 1)

/-- One output sample of the smoothing filter: the pairs
`(data[idx] * weight, weight)` for the in-bounds window offsets around `i`
(`halfWindow` each side). -/
def sgWindowTerms (w : ℤ → ℚ) (data : List ℚ) (halfWindow i : ℕ) : List (ℚ × ℚ) :=
  (List.range (2 * halfWindow + 1)).filterMap fun k =>
    let j : ℤ := (k : ℤ) - halfWindow
    let idx : ℤ := (i : ℤ) + j
    if 0 ≤ idx ∧ idx < data.length then
      some (data.getD idx.toNat 0 * w j, w j)
    else none

/-- `savitzkyGolayFilter(data, windowSize, order)` of the source (the
`order` argument is unused by the simplified implementation and omitted):
inputs shorter than the window are returned unchanged; otherwise every
element is replaced by the weighted average of its in-bounds neighbours,
the source's weight being `w j = exp(-j² / (2 · halfWindow²))`, taken here
as the parameter `w`. -/
def savitzkyGolayFilter (w : ℤ → ℚ) (data : List ℚ) (windowSize : ℕ) : List ℚ :=
  if data.length < windowSize then data
  else
    let halfWindow := windowSize / 2
    (List.range data.length).map fun i =>
      let terms := sgWindowTerms w data halfWindow i
      (terms.map Prod.fst).sum / (terms.map Prod.snd).sum

theorem savitzkyGolayFilter_length (w : ℤ → ℚ) (data : List ℚ) (windowSize : ℕ) :
    (savitzkyGolayFilter w data windowSize).length = data.length := by
  unfold savitzkyGolayFilter
  split
  · rfl
  · simp

/-- One per-frame input record, as delivered in `summary.signals.areas`:
the area measurements are plain numbers, the distance/reference
measurements are nullable (`number | null`). -/
structure AreaInput where
  pharynx : ℚ
  vestibule : ℚ
  bolus : ℚ
  bolus_pharynx_overlap : ℚ
  bolus_vestibule_overlap : ℚ
  c2c4_length : Option ℚ
  hyoid_c4_distance : Option ℚ
  ues_length : Option ℚ
deriving DecidableEq, Repr, Inhabited

/-- The eight smoothed series of `processAdvancedData`: the five area series
keep the frame count, while the hyoid, UES and C2C4 series are compacted
(`filter(d => d !== null)`, resp. `!== null && d > 0`) before smoothing. -/
structure SmoothedSeries where
  bolus_pharynx_overlap : List ℚ
  bolus_vestibule_overlap : List ℚ
  pharynx : List ℚ
  vestibule : List ℚ
  bolus : List ℚ
  hyoid_c4_distance : List ℚ
  ues_length : List ℚ
  c2c4_length : List ℚ
deriving DecidableEq, Repr

/-- The `smoothedData` object of `processAdvancedData` (window 5, order 2). -/
def smoothedOf (w : ℤ → ℚ) (originalAreas : List AreaInput) : SmoothedSeries :=
  { bolus_pharynx_overlap :=
      savitzkyGolayFilter w (originalAreas.map (·.bolus_pharynx_overlap)) 5
    bolus_vestibule_overlap :=
      savitzkyGolayFilter w (originalAreas.map (·.bolus_vestibule_overlap)) 5
    pharynx := savitzkyGolayFilter w (originalAreas.map (·.pharynx)) 5
    vestibule := savitzkyGolayFilter w (originalAreas.map (·.vestibule)) 5
    bolus := savitzkyGolayFilter w (originalAreas.map (·.bolus)) 5
    hyoid_c4_distance :=
      savitzkyGolayFilter w (originalAreas.filterMap (·.hyoid_c4_distance)) 5
    ues_length := savitzkyGolayFilter w (originalAreas.filterMap (·.ues_length)) 5
    c2c4_length :=
      savitzkyGolayFilter w
        (originalAreas.filterMap fun a =>
          a.c2c4_length.bind fun d => if 0 < d then some d else none) 5 }

/-- One row of `processedData`.  The area-group fields can only be a number
or `null`; the two distance-group fields can also be `NaN` (see `JNum`).
`cycleNumber` / `startFrame` / `endFrame` model the dynamic fields
`extractCycleParameters` probes with `!== undefined`: `processAdvancedData`
never sets them, so in every row it produces they are `none`. -/
structure AdvRow where
  frame : ℕ
  smoothed_bolus_pharynx_overlap : ℚ
  smoothed_bolus_vestibule_overlap : ℚ
  smoothed_pharynx : ℚ
  smoothed_vestibule : ℚ
  smoothed_bolus : ℚ
  normalized_bolus_pharynx_overlap : Option ℚ
  normalized_bolus_vestibule_overlap : Option ℚ
  normalized_pharynx : Option ℚ
  normalized_vestibule : Option ℚ
  normalized_bolus : Option ℚ
  normalized_hyoid_c4_distance : Option JNum
  normalized_ues_length : Option JNum
  zscore_bolus_pharynx_overlap : Option ℚ
  zscore_bolus_vestibule_overlap : Option ℚ
  zscore_pharynx : Option ℚ
  zscore_vestibule : Option ℚ
  zscore_bolus : Option ℚ
  zscore_hyoid_c4_distance : Option JNum
  zscore_ues_length : Option JNum
  cycleNumber : Option ℕ
  startFrame : Option ℕ
  endFrame : Option ℕ
deriving DecidableEq, Repr

instance : Inhabited AdvRow :=
  ⟨{ frame := 0
     smoothed_bolus_pharynx_overlap := 0
     smoothed_bolus_vestibule_overlap := 0
     smoothed_pharynx := 0
     smoothed_vestibule := 0
     smoothed_bolus := 0
     normalized_bolus_pharynx_overlap := none
     normalized_bolus_vestibule_overlap := none
     normalized_pharynx := none
     normalized_vestibule := none
     normalized_bolus := none
     normalized_hyoid_c4_distance := none
     normalized_ues_length := none
     zscore_bolus_pharynx_overlap := none
     zscore_bolus_vestibule_overlap := none
     zscore_pharynx := none
     zscore_vestibule := none
     zscore_bolus := none
     zscore_hyoid_c4_distance := none
     zscore_ues_length := none
     cycleNumber := none
     startFrame := none
     endFrame := none }⟩

/-- The frame's effective calibration length,
`smoothedData.c2c4_length[index] || area.c2c4_length`: the smoothed value
when the index is in range of the compacted series and the value is not `0`
(both `undefined` and `0` are falsy), the raw value otherwise. -/
def effectiveC2C4 (sm : List ℚ) (raw : Option ℚ) (i : ℕ) : Option ℚ :=
  match sm.get? i with
  | some v => if v ≠ 0 then some v else raw
  | none => raw

/-- `smoothedData.X[index] !== null ? smoothedData.X[index] * f : null` for a
compacted (distance) smoothed series: the series holds only numbers, so the
`!== null` test also passes for an out-of-range read (`undefined`), whose
product with `f` is `NaN`. -/
def jLookupMul (l : List ℚ) (i : ℕ) (f : ℚ) : JNum :=
  match l.get? i with
  | some v => .num (v * f)
  | none => .nan

/-- The row `processAdvancedData` builds for a frame whose effective
calibration length is missing or non-positive: smoothed area values are
kept, every normalized and z-score field is `null`. -/
def invalidCalibrationRow (sm : SmoothedSeries) (i : ℕ) : AdvRow :=
  { (default : AdvRow) with
    frame := i
    smoothed_bolus_pharynx_overlap := sm.bolus_pharynx_overlap.getD i 0
    smoothed_bolus_vestibule_overlap := sm.bolus_vestibule_overlap.getD i 0
    smoothed_pharynx := sm.pharynx.getD i 0
    smoothed_vestibule := sm.vestibule.getD i 0
    smoothed_bolus := sm.bolus.getD i 0 }

/-- The row `normalizedData[i]` of `processAdvancedData` before the z-score
pass: area measurements are scaled by `scaleFactor`, distance measurements
by `scaleFactor²`; frames without a positive effective calibration length
get `null` in every normalized field. -/
def normRow (sm : SmoothedSeries) (referenceC2C4 : ℚ) (i : ℕ) (a : AreaInput) : AdvRow :=
  match effectiveC2C4 sm.c2c4_length a.c2c4_length i with
  | none => invalidCalibrationRow sm i
  | some c2c4Length =>
    if 0 < c2c4Length then
      let scaleFactor := referenceC2C4 / c2c4Length
      let scaleFactorSquared := scaleFactor * scaleFactor
      { (default : AdvRow) with
        frame := i
        smoothed_bolus_pharynx_overlap := sm.bolus_pharynx_overlap.getD i 0
        smoothed_bolus_vestibule_overlap := sm.bolus_vestibule_overlap.getD i 0
        smoothed_pharynx := sm.pharynx.getD i 0
        smoothed_vestibule := sm.vestibule.getD i 0
        smoothed_bolus := sm.bolus.getD i 0
        normalized_bolus_pharynx_overlap :=
          some (sm.bolus_pharynx_overlap.getD i 0 * scaleFactor)
        normalized_bolus_vestibule_overlap :=
          some (sm.bolus_vestibule_overlap.getD i 0 * scaleFactor)
        normalized_pharynx := some (sm.pharynx.getD i 0 * scaleFactor)
        normalized_vestibule := some (sm.vestibule.getD i 0 * scaleFactor)
        normalized_bolus := some (sm.bolus.getD i 0 * scaleFactor)
        normalized_hyoid_c4_distance :=
          some (jLookupMul sm.hyoid_c4_distance i scaleFactorSquared)
        normalized_ues_length :=
          some (jLookupMul sm.ues_length i scaleFactorSquared) }
    else invalidCalibrationRow sm i

/-- The five area-group parameter accessors (normalized values). -/
def areaGetters : List (AdvRow → Option ℚ) :=
  [fun r => r.normalized_bolus_pharynx_overlap,
   fun r => r.normalized_bolus_vestibule_overlap,
   fun r => r.normalized_pharynx,
   fun r => r.normalized_vestibule,
   fun r => r.normalized_bolus]

/-- The two distance-group parameter accessors (normalized values). -/
def distanceGetters : List (AdvRow → Option JNum) :=
  [fun r => r.normalized_hyoid_c4_distance,
   fun r => r.normalized_ues_length]

/-- All non-`null` values of a group, pooled parameter-major across all
frames, as `calculateGroupZScore` collects them (ℚ-valued group). -/
def groupValuesQ (getters : List (AdvRow → Option ℚ)) (rows : List AdvRow) : List ℚ :=
  (getters.map fun g => rows.filterMap g).flatten

/-- All non-`null` values of a group, pooled parameter-major across all
frames (`JNum`-valued group: an out-of-range smoothed lookup contributes
`NaN`, which the `!== null` filter keeps). -/
def groupValuesJ (getters : List (AdvRow → Option JNum)) (rows : List AdvRow) : List JNum :=
  (getters.map fun g => rows.filterMap g).flatten

/-- `mean` as `calculateGroupZScore` computes it. -/
def meanQ (l : List ℚ) : ℚ := l.sum / l.length

/-- Population variance as `calculateGroupZScore` computes it. -/
def varQ (l : List ℚ) : ℚ :=
  (l.map fun v => (v - meanQ l) ^ 2).sum / l.length

/-- The `{mean, stdDev}` statistics of a ℚ-valued group. -/
structure GroupStatsQ where
  mean : ℚ
  stdDev : ℚ
deriving DecidableEq, Repr

/-- The `{mean, stdDev}` statistics of a `JNum`-valued group. -/
structure GroupStatsJ where
  mean : JNum
  stdDev : JNum
deriving DecidableEq, Repr

/-- `calculateGroupZScore` for a ℚ-valued group: `{mean: 0, stdDev: 1}` when
the group has no valid value, otherwise the pooled mean and
`Math.sqrt(variance)` floored to `1` when not positive. -/
def calculateGroupZScoreQ (sqrtQ : ℚ → ℚ) (getters : List (AdvRow → Option ℚ))
    (rows : List AdvRow) : GroupStatsQ :=
  let groupValues := groupValuesQ getters rows
  if groupValues.isEmpty then ⟨0, 1⟩
  else
    let stdDev := sqrtQ (varQ groupValues)
    ⟨meanQ groupValues, if 0 < stdDev then stdDev else 1⟩

/-- `Math.reduce((sum, val) => sum + val, 0)` over JavaScript numbers. -/
def jsum (l : List JNum) : JNum := l.foldl .add (.num 0)

/-- The pooled mean of a `JNum`-valued group. -/
def jmean (l : List JNum) : JNum := (jsum l).div (.num l.length)

/-- The pooled population variance of a `JNum`-valued group. -/
def jvar (l : List JNum) : JNum :=
  (jsum (l.map fun v => (v.sub (jmean l)).sq)).div (.num l.length)

/-- `calculateGroupZScore` for the `JNum`-valued (distance) group. -/
def calculateGroupZScoreJ (sqrtQ : ℚ → ℚ) (getters : List (AdvRow → Option JNum))
    (rows : List AdvRow) : GroupStatsJ :=
  let groupValues := groupValuesJ getters rows
  if groupValues.isEmpty then ⟨.num 0, .num 1⟩
  else
    let stdDev := (jvar groupValues).sqrtJ sqrtQ
    ⟨jmean groupValues, if stdDev.gtq 0 then stdDev else .num 1⟩

/-- The z-score pass over one row: every non-`null` normalized value gets
`(value - group_mean) / group_stdDev` with its group's statistics. -/
def applyRowZ (a : GroupStatsQ) (d : GroupStatsJ) (r : AdvRow) : AdvRow :=
  { r with
    zscore_bolus_pharynx_overlap :=
      r.normalized_bolus_pharynx_overlap.map fun v => (v - a.mean) / a.stdDev
    zscore_bolus_vestibule_overlap :=
      r.normalized_bolus_vestibule_overlap.map fun v => (v - a.mean) / a.stdDev
    zscore_pharynx := r.normalized_pharynx.map fun v => (v - a.mean) / a.stdDev
    zscore_vestibule := r.normalized_vestibule.map fun v => (v - a.mean) / a.stdDev
    zscore_bolus := r.normalized_bolus.map fun v => (v - a.mean) / a.stdDev
    zscore_hyoid_c4_distance :=
      r.normalized_hyoid_c4_distance.map fun v => (v.sub d.mean).div d.stdDev
    zscore_ues_length :=
      r.normalized_ues_length.map fun v => (v.sub d.mean).div d.stdDev }

/-- The result object of `processAdvancedData`. -/
structure AdvResult where
  reference : ℚ
  processedData : List AdvRow
  areaStats : GroupStatsQ
  areaParameterCount : ℕ
  distanceStats : GroupStatsJ
  distanceParameterCount : ℕ
deriving DecidableEq, Repr

/-- `processAdvancedData(originalAreas, referenceC2C4)`: smoothing,
calibration to the reference C2C4 length, then grouped z-score
standardisation. -/
def processAdvancedData (w : ℤ → ℚ) (sqrtQ : ℚ → ℚ)
    (originalAreas : List AreaInput) (referenceC2C4 : ℚ) : AdvResult :=
  let sm := smoothedOf w originalAreas
  let normalizedData := originalAreas.enum.map fun p => normRow sm referenceC2C4 p.1 p.2
  let areaStats := calculateGroupZScoreQ sqrtQ areaGetters normalizedData
  let distanceStats := calculateGroupZScoreJ sqrtQ distanceGetters normalizedData
  { reference := referenceC2C4
    processedData := normalizedData.map (applyRowZ areaStats distanceStats)
    areaStats := areaStats
    areaParameterCount := areaGetters.length
    distanceStats := distanceStats
    distanceParameterCount := distanceGetters.length }

/-! ## Per-cycle clinical parameter extraction (`extractCycleParameters`) -/

/-- `processedData.slice(startFrame, endFrame + 1)`. -/
def cycleSlice (startFrame endFrame : ℕ) (processedData : List AdvRow) : List AdvRow :=
  (processedData.drop startFrame).take (endFrame + 1 - startFrame)

/-- The cycle's standardized pharynx samples,
`cycleData.map(row => row.zscore_pharynx).filter(val => val !== null)`. -/
def cyclePharynx (startFrame endFrame : ℕ) (processedData : List AdvRow) : List ℚ :=
  (cycleSlice startFrame endFrame processedData).filterMap (·.zscore_pharynx)

/-- JavaScript's `sort((a, b) => a - b)`: ascending; a list of plain
rationals has a unique sorted arrangement (duplicates are
indistinguishable values), so any comparison sort produces this list. -/
def sortedAsc (l : List ℚ) : List ℚ := l.insertionSort (· ≤ ·)

/-- The PCR block of `extractCycleParameters` (only entered when the pharynx
sample list is non-empty).  `Math.floor(n * 0.95)` and `Math.floor(n * 0.05)`
are `19 * n / 20` and `n / 20` in exact arithmetic; the double rounding of
`0.95`/`0.05` cannot move the product across an integer for any frame count
a recording can have. -/
structure PcrOut where
  PCR : ℚ
  p95Value : ℚ
  p5Value : ℚ
  adjustedP95 : ℚ
  adjustedP5 : ℚ
  frames : ℕ
  hasNegativeValues : Bool
deriving DecidableEq, Repr

/-- The 95th nearest-rank percentile, `sorted[Math.floor(n * 0.95)]`. -/
def p95Of (l : List ℚ) : ℚ := (sortedAsc l).getD (19 * (sortedAsc l).length / 20) 0

/-- The 5th nearest-rank percentile, `sorted[Math.floor(n * 0.05)]`. -/
def p5Of (l : List ℚ) : ℚ := (sortedAsc l).getD ((sortedAsc l).length / 20) 0

/-- The PCR computation: the 5th/95th nearest-rank percentiles with the
negative-value handling (both negative → absolute values; exactly one
negative → shift both by `|min| + 0.1`; otherwise unchanged), and
`PCR = adjusted 5th percentile / adjusted 95th percentile`. -/
def pcrSection (pharynxZScore : List ℚ) : PcrOut :=
  let p95Value := p95Of pharynxZScore
  let p5Value := p5Of pharynxZScore
  let adjusted :=
    if p95Value < 0 ∧ p5Value < 0 then (absQ p95Value, absQ p5Value)
    else if p95Value < 0 ∨ p5Value < 0 then
      let offset := absQ (minOfList pharynxZScore) + 1 / 10
      (p95Value + offset, p5Value + offset)
    else (p95Value, p5Value)
  { PCR := adjusted.2 / adjusted.1
    p95Value := p95Value
    p5Value := p5Value
    adjustedP95 := adjusted.1
    adjustedP5 := adjusted.2
    frames := pharynxZScore.length
    hasNegativeValues := decide (p95Value < 0 ∨ p5Value < 0) }

/-- The near-zero clamping of the per-frame aspiration ratio operands: a
vestibule area with `|v| < 0.01` is replaced by `0.01`; otherwise (and only
then) an overlap with `|o| < 0.01` is replaced by `0.01`. -/
def adjustedPair (overlap vestibuleArea : ℚ) : ℚ × ℚ :=
  if absQ vestibuleArea < 1 / 100 then (overlap, 1 / 100)
  else if absQ overlap < 1 / 100 then (1 / 100, vestibuleArea)
  else (overlap, vestibuleArea)

/-- One row of `overlapRatioDetails`. -/
structure OverlapDetail where
  frame : ℕ
  normalizedOverlap : ℚ
  normalizedVestibule : ℚ
  adjustedOverlap : ℚ
  adjustedVestibule : ℚ
  ratio : ℚ
deriving DecidableEq, Repr

/-- The per-frame overlap/vestibule ratio records of a cycle: one for every
frame whose normalized overlap and vestibule values are both present. -/
def overlapDetailsOf (cycleData : List AdvRow) (startFrame : ℕ) : List OverlapDetail :=
  cycleData.enum.filterMap fun p =>
    match p.2.normalized_bolus_vestibule_overlap, p.2.normalized_vestibule with
    | some overlap, some vestibuleArea =>
      let adj := adjustedPair overlap vestibuleArea
      some { frame := startFrame + p.1
             normalizedOverlap := overlap
             normalizedVestibule := vestibuleArea
             adjustedOverlap := adj.1
             adjustedVestibule := adj.2
             ratio := adj.1 / adj.2 }
    | _, _ => none

/-- The aspiration-risk block of `extractCycleParameters`:
`(aspirationRisk, maxOverlapRatio, overlapRatioDetails)`, each `null` unless
both series have samples and at least one frame has both. -/
def aspirationSection (cycleData : List AdvRow) (startFrame : ℕ) :
    Option Bool × Option ℚ × Option (List OverlapDetail) :=
  let bolusVestibuleOverlap := cycleData.filterMap (·.normalized_bolus_vestibule_overlap)
  let vestibule := cycleData.filterMap (·.normalized_vestibule)
  if ¬bolusVestibuleOverlap.isEmpty ∧ ¬vestibule.isEmpty then
    let overlapDetails := overlapDetailsOf cycleData startFrame
    let overlapRatios := overlapDetails.map (·.ratio)
    if ¬overlapRatios.isEmpty then
      let maxOverlapRatio := maxOfList overlapRatios
      (some (decide ((1 : ℚ) / 5 ≤ maxOverlapRatio)), some maxOverlapRatio,
        some overlapDetails)
    else (none, none, none)
  else (none, none, none)

/-- `allCycles = processedData.filter(row => row.cycleNumber !== undefined)`. -/
def allCyclesOf (rows : List AdvRow) : List AdvRow :=
  rows.filter fun r => r.cycleNumber.isSome

/-- The widened backward search limit of the landmark searches: the previous
cycle's `endFrame` (clamped at 0) when the current cycle is found among the
rows that carry a `cycleNumber`; the cycle's own `startFrame` otherwise. -/
def widenedSearchStart (rows : List AdvRow) (startFrame cycleNumber : ℕ) : ℕ :=
  let allCycles := allCyclesOf rows
  match allCycles.find? (fun r => r.cycleNumber == some cycleNumber) with
  | none => startFrame
  | some _ =>
    let cycleIndex := allCycles.findIdx fun r => r.cycleNumber == some cycleNumber
    if 0 < cycleIndex then
      match allCycles.get? (cycleIndex - 1) with
      | some prevCycle =>
        match prevCycle.endFrame with
        | some e => max 0 e
        | none => startFrame
      | none => startFrame
    else startFrame

/-- The widened forward search limit: the next cycle's `startFrame` when the
current cycle is found among the rows that carry a `cycleNumber`;
`startFrame + seriesLength - 1` (the cycle's own last sample) otherwise. -/
def widenedSearchEnd (rows : List AdvRow) (startFrame seriesLength cycleNumber : ℕ) : ℤ :=
  let allCycles := allCyclesOf rows
  let ownEnd : ℤ := (startFrame : ℤ) + seriesLength - 1
  match allCycles.find? (fun r => r.cycleNumber == some cycleNumber) with
  | none => ownEnd
  | some _ =>
    let cycleIndex := allCycles.findIdx fun r => r.cycleNumber == some cycleNumber
    if cycleIndex + 1 < allCycles.length then
      match allCycles.get? (cycleIndex + 1) with
      | some nextCycle =>
        match nextCycle.startFrame with
        | some s => (s : ℤ)
        | none => ownEnd
      | none => ownEnd
    else ownEnd

/-- The maximum scan `for (i = 1; ...) if (h[i] > maxValue) ...` over a
`JNum` series (a `NaN` current maximum is never replaced, as in
JavaScript). -/
def scanMaxJ (l : List JNum) : JNum × ℕ :=
  (List.range' 1 (l.length - 1)).foldl
    (fun acc i => if (jget l i).gt acc.1 then (jget l i, i) else acc)
    (jget l 0, 0)

/-- A fallback extremum scan with the source's post-update break: visit the
indices in order, replace the accumulator when `better` holds, stop after
the first index where `stop` holds. -/
def jscanExtreme (l : List JNum) (better : JNum → JNum → Bool) (stop : ℕ → Bool) :
    List ℕ → JNum × ℕ → JNum × ℕ
  | [], acc => acc
  | i :: is, acc =>
    let acc2 := if better (jget l i) acc.1 then (jget l i, i) else acc
    if stop i then acc2 else jscanExtreme l better stop is acc2

/-- `jscanExtreme` for a plain rational series. -/
def qscanExtreme (l : List ℚ) (better : ℚ → ℚ → Bool) (stop : ℕ → Bool) :
    List ℕ → ℚ × ℕ → ℚ × ℕ
  | [], acc => acc
  | i :: is, acc =>
    let acc2 := if better (l.getD i 0) acc.1 then (l.getD i 0, i) else acc
    if stop i then acc2 else qscanExtreme l better stop is acc2

/-- The HYB block's outputs. -/
structure HybOut where
  hyb : ℕ
  peakFrame : ℕ
  valleyFrame : ℕ
  peakValue : JNum
  valleyValue : JNum
deriving DecidableEq, Repr

/-- The HYB (hyoid burst onset) block: peak of the cycle's standardized
hyoid-C4 series, then the first slope sign change (negative to positive)
searching backward to the widened start limit, with a local-minimum
fallback that stops at the first rise above `0.05`. -/
def hybSection (rows cycleData : List AdvRow) (startFrame cycleNumber : ℕ) :
    Option HybOut :=
  let hyoidC4Distance := cycleData.filterMap (·.zscore_hyoid_c4_distance)
  if hyoidC4Distance.isEmpty then none
  else
    let m := scanMaxJ hyoidC4Distance
    let searchStartFrame := widenedSearchStart rows startFrame cycleNumber
    let diffData := jdiff hyoidC4Distance
    let searchStartInCycle := searchStartFrame - startFrame
    let idxs := downFrom ((m.2 : ℤ) - 1) searchStartInCycle
    let valley :=
      match idxs.find? (fun i => decide (0 < i) && decide (i - 1 < diffData.length)
          && (jget diffData (i - 1)).ltq 0 && (jget diffData i).gtq 0) with
      | some i => (jget hyoidC4Distance i, i)
      | none =>
        jscanExtreme hyoidC4Distance (fun v cur => v.lt cur)
          (fun i => decide (0 < i) &&
            ((jget hyoidC4Distance i).sub (jget hyoidC4Distance (i - 1))).gtq (1 / 20))
          idxs (m.1, m.2)
    some { hyb := startFrame + valley.2
           peakFrame := startFrame + m.2
           valleyFrame := startFrame + valley.2
           peakValue := m.1
           valleyValue := valley.1 }

/-- The UES block's outputs. -/
structure UesOut where
  ueso : ℕ
  uesc : ℕ
  peakFrame : ℕ
  peakValue : JNum
  beforeValleyFrame : ℕ
  afterValleyFrame : ℕ
  beforeValleyValue : JNum
  afterValleyValue : JNum
deriving DecidableEq, Repr

/-- The UESO/UESC block: peak of the cycle's standardized UES-length series,
the valley before it (slope negative→positive searching backward to the
widened start limit) and the point after it where the slope turns
positive→negative (searching forward to the widened end limit), each with
a local-minimum fallback stopping at the first rise above `0.05`. -/
def uesSection (rows cycleData : List AdvRow) (startFrame cycleNumber : ℕ) :
    Option UesOut :=
  let uesLength := cycleData.filterMap (·.zscore_ues_length)
  if uesLength.isEmpty then none
  else
    let m := scanMaxJ uesLength
    let diffData := jdiff uesLength
    let searchStartFrame := widenedSearchStart rows startFrame cycleNumber
    let searchEndFrame := widenedSearchEnd rows startFrame uesLength.length cycleNumber
    let searchStartInCycle := searchStartFrame - startFrame
    let searchEndInCycle : ℤ :=
      min ((uesLength.length : ℤ) - 1) (searchEndFrame - startFrame)
    let downIdxs := downFrom ((m.2 : ℤ) - 1) searchStartInCycle
    let before :=
      match downIdxs.find? (fun i => decide (0 < i) && decide (i - 1 < diffData.length)
          && (jget diffData (i - 1)).ltq 0 && (jget diffData i).gtq 0) with
      | some i => (jget uesLength i, i)
      | none =>
        jscanExtreme uesLength (fun v cur => v.lt cur)
          (fun i => decide (0 < i) &&
            ((jget uesLength i).sub (jget uesLength (i - 1))).gtq (1 / 20))
          downIdxs (m.1, m.2)
    let upIdxs := upTo (m.2 + 1) searchEndInCycle
    let after :=
      match upIdxs.find? (fun i => decide (i < diffData.length)
          && (jget diffData (i - 1)).gtq 0 && (jget diffData i).ltq 0) with
      | some i => (jget uesLength i, i)
      | none =>
        jscanExtreme uesLength (fun v cur => v.lt cur)
          (fun i => decide (i + 1 < uesLength.length) &&
            ((jget uesLength (i + 1)).sub (jget uesLength i)).gtq (1 / 20))
          upIdxs (m.1, m.2)
    some { ueso := startFrame + before.2
           uesc := startFrame + after.2
           peakFrame := startFrame + m.2
           peakValue := m.1
           beforeValleyFrame := startFrame + before.2
           afterValleyFrame := startFrame + after.2
           beforeValleyValue := before.1
           afterValleyValue := after.1 }

/-- The LVC block's outputs. -/
structure LvcOut where
  lvc : ℕ
  lvcoff : ℕ
  peakFrame : ℕ
  peakValue : ℚ
  valley1Frame : ℕ
  valley2Frame : ℕ
  valley1Value : ℚ
  valley2Value : ℚ
deriving DecidableEq, Repr

/-- The LVC/LVCoff block on the cycle's standardized vestibule series: the
global minimum of the widened window (valley 1), then a peak backward of it
(second-difference sign flip over threshold `0.1`, falling back to a
first-difference flip over `0.15`, then to a local maximum) and a second
valley forward of it (the mirrored detectors).  The widened forward limit
is computed from the length of the *normalized* vestibule list, as the
source does. -/
def lvcSection (rows cycleData : List AdvRow) (startFrame cycleNumber : ℕ) :
    Option LvcOut :=
  let vestibuleData := cycleData.filterMap (·.zscore_vestibule)
  let vestibule := cycleData.filterMap (·.normalized_vestibule)
  if vestibuleData.isEmpty then none
  else
    let searchStartFrame := widenedSearchStart rows startFrame cycleNumber
    let searchEndFrame := widenedSearchEnd rows startFrame vestibule.length cycleNumber
    let diffData := diffQ vestibuleData
    let secondDiffData := diffQ diffData
    let searchStartInCycle := searchStartFrame - startFrame
    let searchEndInCycle : ℤ :=
      min ((vestibuleData.length : ℤ) - 1) (searchEndFrame - startFrame)
    let valley1 := (upTo searchStartInCycle searchEndInCycle).foldl
      (fun acc i =>
        if vestibuleData.getD i 0 < acc.1 then (vestibuleData.getD i 0, i) else acc)
      (vestibuleData.getD 0 0, 0)
    let downIdxs := downFrom ((valley1.2 : ℤ) - 1) searchStartInCycle
    let peak :=
      match downIdxs.find? (fun i => decide (1 < i)
          && decide (i - 2 < secondDiffData.length)
          && decide ((1 : ℚ) / 10 < secondDiffData.getD (i - 2) 0)
          && decide (secondDiffData.getD (i - 1) 0 < -(1 / 10))) with
      | some i => (vestibuleData.getD i 0, i)
      | none =>
        match downIdxs.find? (fun i => decide (0 < i)
            && decide (i - 1 < diffData.length)
            && decide ((3 : ℚ) / 20 < diffData.getD (i - 1) 0)
            && decide (diffData.getD i 0 < -(3 / 20))) with
        | some i => (vestibuleData.getD i 0, i)
        | none =>
          qscanExtreme vestibuleData (fun v cur => decide (cur < v))
            (fun i => decide (0 < i) &&
              decide (vestibuleData.getD (i + 1) 0 - vestibuleData.getD i 0 < -(3 / 20)))
            downIdxs (valley1.1, valley1.2)
    let upIdxs := upTo (valley1.2 + 1) searchEndInCycle
    let valley2 :=
      match upIdxs.find? (fun i => decide (1 < i)
          && decide (i - 2 < secondDiffData.length)
          && decide (secondDiffData.getD (i - 2) 0 < -(1 / 10))
          && decide ((1 : ℚ) / 10 < secondDiffData.getD (i - 1) 0)) with
      | some i => (vestibuleData.getD i 0, i)
      | none =>
        match upIdxs.find? (fun i => decide (0 < i)
            && decide (i - 1 < diffData.length)
            && decide (diffData.getD (i - 1) 0 < -(3 / 20))
            && decide ((3 : ℚ) / 20 < diffData.getD i 0)) with
        | some i => (vestibuleData.getD i 0, i)
        | none =>
          qscanExtreme vestibuleData (fun v cur => decide (v < cur))
            (fun i => decide (i + 1 < vestibuleData.length) &&
              decide ((3 : ℚ) / 20 < vestibuleData.getD (i + 1) 0 - vestibuleData.getD i 0))
            upIdxs (valley1.1, valley1.2)
    some { lvc := startFrame + peak.2
           lvcoff := startFrame + valley2.2
           peakFrame := startFrame + peak.2
           peakValue := peak.1
           valley1Frame := startFrame + valley1.2
           valley2Frame := startFrame + valley2.2
           valley1Value := valley1.1
           valley2Value := valley2.1 }

/-- The object `extractCycleParameters` returns.  Every field is optional:
the early return `{ PCR: null }` leaves all other properties `undefined`,
which downstream code treats exactly like `null` (both are "absent"). -/
structure CycleParams where
  PCR : Option ℚ
  PCR_p95 : Option ℚ
  PCR_p5 : Option ℚ
  PCR_adjusted_p95 : Option ℚ
  PCR_adjusted_p5 : Option ℚ
  PCR_frames : Option ℕ
  PCR_hasNegativeValues : Option Bool
  aspirationRisk : Option Bool
  maxOverlapRatio : Option ℚ
  aspirationThreshold : Option ℚ
  overlapRatioDetails : Option (List OverlapDetail)
  HYB : Option ℕ
  HYB_peakFrame : Option ℕ
  HYB_valleyFrame : Option ℕ
  HYB_peakValue : Option JNum
  HYB_valleyValue : Option JNum
  UESO : Option ℕ
  UESC : Option ℕ
  UES_peakFrame : Option ℕ
  UES_peakValue : Option JNum
  UES_beforeValleyFrame : Option ℕ
  UES_afterValleyFrame : Option ℕ
  UES_beforeValleyValue : Option JNum
  UES_afterValleyValue : Option JNum
  LVC : Option ℕ
  LVCoff : Option ℕ
  LVC_peakFrame : Option ℕ
  LVC_peakValue : Option ℚ
  LVC_valley1Frame : Option ℕ
  LVC_valley2Frame : Option ℕ
  LVC_valley1Value : Option ℚ
  LVC_valley2Value : Option ℚ
deriving DecidableEq, Repr

/-- The early-return object `{ PCR: null }`: every parameter absent. -/
def emptyCycleParams : CycleParams :=
  { PCR := none, PCR_p95 := none, PCR_p5 := none, PCR_adjusted_p95 := none
    PCR_adjusted_p5 := none, PCR_frames := none, PCR_hasNegativeValues := none
    aspirationRisk := none, maxOverlapRatio := none, aspirationThreshold := none
    overlapRatioDetails := none
    HYB := none, HYB_peakFrame := none, HYB_valleyFrame := none
    HYB_peakValue := none, HYB_valleyValue := none
    UESO := none, UESC := none, UES_peakFrame := none, UES_peakValue := none
    UES_beforeValleyFrame := none, UES_afterValleyFrame := none
    UES_beforeValleyValue := none, UES_afterValleyValue := none
    LVC := none, LVCoff := none, LVC_peakFrame := none, LVC_peakValue := none
    LVC_valley1Frame := none, LVC_valley2Frame := none
    LVC_valley1Value := none, LVC_valley2Value := none }

/-- `extractCycleParameters(startFrame, endFrame, processedData,
cycleNumber)`: returns `{ PCR: null }` when the cycle has no standardized
pharynx sample, otherwise the PCR, aspiration-risk and landmark blocks. -/
def extractCycleParameters (startFrame endFrame : ℕ) (processedData : List AdvRow)
    (cycleNumber : ℕ) : CycleParams :=
  let cycleData := cycleSlice startFrame endFrame processedData
  let pharynxZScore := cyclePharynx startFrame endFrame processedData
  if pharynxZScore.isEmpty then emptyCycleParams
  else
    let pcr := pcrSection pharynxZScore
    let asp := aspirationSection cycleData startFrame
    let hyb := hybSection processedData cycleData startFrame cycleNumber
    let ues := uesSection processedData cycleData startFrame cycleNumber
    let lvc := lvcSection processedData cycleData startFrame cycleNumber
    { PCR := some pcr.PCR
      PCR_p95 := some pcr.p95Value
      PCR_p5 := some pcr.p5Value
      PCR_adjusted_p95 := some pcr.adjustedP95
      PCR_adjusted_p5 := some pcr.adjustedP5
      PCR_frames := some pcr.frames
      PCR_hasNegativeValues := some pcr.hasNegativeValues
      aspirationRisk := asp.1
      maxOverlapRatio := asp.2.1
      aspirationThreshold := some (1 / 5)
      overlapRatioDetails := asp.2.2
      HYB := hyb.map (·.hyb)
      HYB_peakFrame := hyb.map (·.peakFrame)
      HYB_valleyFrame := hyb.map (·.valleyFrame)
      HYB_peakValue := hyb.map (·.peakValue)
      HYB_valleyValue := hyb.map (·.valleyValue)
      UESO := ues.map (·.ueso)
      UESC := ues.map (·.uesc)
      UES_peakFrame := ues.map (·.peakFrame)
      UES_peakValue := ues.map (·.peakValue)
      UES_beforeValleyFrame := ues.map (·.beforeValleyFrame)
      UES_afterValleyFrame := ues.map (·.afterValleyFrame)
      UES_beforeValleyValue := ues.map (·.beforeValleyValue)
      UES_afterValleyValue := ues.map (·.afterValleyValue)
      LVC := lvc.map (·.lvc)
      LVCoff := lvc.map (·.lvcoff)
      LVC_peakFrame := lvc.map (·.peakFrame)
      LVC_peakValue := lvc.map (·.peakValue)
      LVC_valley1Frame := lvc.map (·.valley1Frame)
      LVC_valley2Frame := lvc.map (·.valley2Frame)
      LVC_valley1Value := lvc.map (·.valley1Value)
      LVC_valley2Value := lvc.map (·.valley2Value) }

/-! ## Cycle segmentation (`detectSwallowingCycles`) -/

/-- Frame `i` is a local maximum of the smoothed driver: no other frame in
the symmetric window of radius `windowSize` has a value `≥` the value at
`i` (the source's loop rejects on `smoothedData[j] >= smoothedData[i]`). -/
def isLocalPeak (smoothedData : List ℚ) (windowSize i : ℕ) : Bool :=
  (List.range' (i - windowSize) (2 * windowSize + 1)).all fun j =>
    j == i || decide (smoothedData.getD j 0 < smoothedData.getD i 0)

/-- The candidate peaks: every frame outside a `windowSize`-wide boundary
that is a local maximum and exceeds `minPeakHeight`, in increasing order. -/
def detectPeaks (smoothedData : List ℚ) (minPeakHeight : ℚ) (windowSize : ℕ) : List ℕ :=
  (List.range smoothedData.length).filter fun i =>
    decide (windowSize ≤ i) && decide (i + windowSize < smoothedData.length)
      && isLocalPeak smoothedData windowSize i
      && decide (minPeakHeight < smoothedData.getD i 0)

/-- One step of the peak filter: against the first already-kept peak closer
than `minCycleLength`, keep only the larger one (the earlier on a tie). -/
def filterPeaksStep (smoothedData : List ℚ) (minCycleLength : ℕ)
    (filteredPeaks : List ℕ) (currentPeak : ℕ) : List ℕ :=
  match filteredPeaks.findIdx?
      (fun prevPeak => decide (((currentPeak : ℤ) - prevPeak).natAbs < minCycleLength)) with
  | none => filteredPeaks ++ [currentPeak]
  | some j =>
    if smoothedData.getD (filteredPeaks.getD j 0) 0 < smoothedData.getD currentPeak 0 then
      filteredPeaks.eraseIdx j ++ [currentPeak]
    else filteredPeaks

/-- The peak filter of `detectSwallowingCycles`. -/
def filterPeaks (smoothedData : List ℚ) (minCycleLength : ℕ) (peaks : List ℕ) : List ℕ :=
  peaks.foldl (filterPeaksStep smoothedData minCycleLength) []

/-- The first cycle's start frame: the first frame before the peak whose
first difference exceeds `0.02`, frame `0` otherwise. -/
def firstCycleStart (diffData : List ℚ) (peakFrame : ℕ) : ℕ :=
  ((List.range peakFrame).find? fun j => decide ((1 : ℚ) / 50 < diffData.getD j 0)).getD 0

/-- A later cycle's start frame: the minimum of the smoothed driver between
the previous cycle's end and the peak, then the first frame from that
minimum whose first difference exceeds `0.015`. -/
def subsequentStart (smoothedData diffData : List ℚ) (lastEndFrame : ℤ) (peakFrame : ℕ) : ℕ :=
  let searchStartFrame : ℕ := (lastEndFrame + 1).toNat
  let localMin := (upTo searchStartFrame ((peakFrame : ℤ) - 1)).foldl
    (fun acc j =>
      if smoothedData.getD j 0 < acc.1 then (smoothedData.getD j 0, j) else acc)
    (smoothedData.getD peakFrame 0, peakFrame)
  ((upTo localMin.2 ((peakFrame : ℤ) - 1)).find? fun j =>
      decide ((3 : ℚ) / 200 < diffData.getD j 0)).getD localMin.2

/-- The bounded minimum scan after the peak, stopping early at the first
frame (other than the last) whose first difference exceeds `0.02`. -/
def postPeakMinScan (smoothedData diffData : List ℚ) :
    List ℕ → ℚ × ℕ → ℚ × ℕ
  | [], acc => acc
  | j :: js, acc =>
    let acc2 :=
      if smoothedData.getD j 0 < acc.1 then (smoothedData.getD j 0, j) else acc
    if j + 1 < smoothedData.length ∧ (1 : ℚ) / 50 < diffData.getD j 0 then acc2
    else postPeakMinScan smoothedData diffData js acc2

/-- The end frame: from the post-peak minimum, the first frame (within 30)
whose absolute first difference falls below `0.015`; the source compares
against `diffData[j]`, which for `j` past the last difference is
`undefined` and rejects, hence the explicit bound check. -/
def endStable (diffData : List ℚ) (dataLength postMinIndex : ℕ) : ℕ :=
  ((upTo postMinIndex (min (dataLength : ℤ) ((postMinIndex : ℤ) + 30) - 1)).find? fun j =>
      decide (j < diffData.length) &&
        decide (absQ (diffData.getD j 0) < 3 / 200)).getD postMinIndex

/-- One detected swallow cycle with its attached clinical parameters. -/
structure SwallowCycle where
  cycleNumber : ℕ
  startFrame : ℕ
  peakFrame : ℕ
  endFrame : ℕ
  peakValue : ℚ
  duration : ℤ
  startTime : ℚ
  endTime : ℚ
  durationTime : ℚ
  params : CycleParams
deriving DecidableEq, Repr

/-- The start-frame candidate: the first cycle searches from frame 0 for
the first rise over `0.02`; later cycles search from the previous accepted
end for the local minimum and then the first rise over `0.015`. -/
def candidateStart (smoothedData diffData : List ℚ) (lastEndFrame : ℤ) (i peakFrame : ℕ) : ℕ :=
  if i = 0 then firstCycleStart diffData peakFrame
  else subsequentStart smoothedData diffData lastEndFrame peakFrame

/-- The end-frame candidate: the stability search started from the bounded
post-peak minimum. -/
def candidateEnd (smoothedData diffData : List ℚ) (peakFrame : ℕ) : ℕ :=
  endStable diffData smoothedData.length
    (postPeakMinScan smoothedData diffData
      (upTo (peakFrame + 1) (min (smoothedData.length : ℤ) ((peakFrame : ℤ) + 100) - 1))
      (smoothedData.getD peakFrame 0, peakFrame)).2

/-- One iteration of the cycle loop: build the candidate boundaries for the
`i`-th filtered peak, validate them (duration within `[5, 200]`, start
strictly after the previous accepted end, start before and end after the
peak), and append the cycle (with its extracted parameters) on success. -/
def cycleStep (smoothedData diffData : List ℚ) (processedData : List AdvRow) (fps : ℚ) :
    List SwallowCycle × ℤ → ℕ × ℕ → List SwallowCycle × ℤ
  | (cycles, lastEndFrame), (i, peakFrame) =>
    let startFrame := candidateStart smoothedData diffData lastEndFrame i peakFrame
    let endFrame := candidateEnd smoothedData diffData peakFrame
    let cycleLength : ℤ := (endFrame : ℤ) - startFrame
    if 5 ≤ cycleLength ∧ cycleLength ≤ 200 ∧ lastEndFrame < (startFrame : ℤ) ∧
        startFrame < peakFrame ∧ peakFrame < endFrame then
      (cycles ++
        [{ cycleNumber := i + 1
           startFrame := startFrame
           peakFrame := peakFrame
           endFrame := endFrame
           peakValue := smoothedData.getD peakFrame 0
           duration := cycleLength
           startTime := (startFrame : ℚ) / fps
           endTime := (endFrame : ℚ) / fps
           durationTime := (cycleLength : ℚ) / fps
           params := extractCycleParameters startFrame endFrame processedData (i + 1) }],
        (endFrame : ℤ))
    else (cycles, lastEndFrame)

/-- The analysis object `detectSwallowingCycles` returns on the long-input
path. -/
structure DetectResult where
  cycles : List SwallowCycle
  totalSwallows : ℕ
  smoothedData : List ℚ
  diffData : List ℚ
  peaks : List ℕ
deriving DecidableEq, Repr

/-- `detectSwallowingCycles(zscoreData, processedData, fps, minPeakHeight,
minCycleLength)`: the source returns the bare empty array `[]` when the
driver is shorter than `minCycleLength` (modelled by `Sum.inl`), and the
full analysis object otherwise (`Sum.inr`). -/
def detectSwallowingCycles (w : ℤ → ℚ) (zscoreData : List ℚ) (processedData : List AdvRow)
    (fps minPeakHeight : ℚ) (minCycleLength : ℕ) : List SwallowCycle ⊕ DetectResult :=
  if zscoreData.length < minCycleLength then .inl []
  else
    let smoothedData := savitzkyGolayFilter w zscoreData 5
    let diffData := diffQ smoothedData
    let filteredPeaks :=
      filterPeaks smoothedData minCycleLength (detectPeaks smoothedData minPeakHeight 3)
    let looped := filteredPeaks.enum.foldl
      (cycleStep smoothedData diffData processedData fps) ([], -1)
    .inr { cycles := looped.1
           totalSwallows := looped.1.length
           smoothedData := smoothedData
           diffData := diffData
           peaks := filteredPeaks }

/-- The cycle list of either return shape of `detectSwallowingCycles`. -/
def cyclesOf : List SwallowCycle ⊕ DetectResult → List SwallowCycle :=
  Sum.elim id (·.cycles)

/-! ## Theorems -/

/-- The loop invariant of the cycle-building fold: every accepted cycle is
ordered, consecutive cycles are separated, peaks increase, and every
accepted end frame is at most the `lastEndFrame` accumulator. -/
def cycleAccInv (st : List SwallowCycle × ℤ) : Prop :=
  (∀ c ∈ st.1, c.startFrame < c.peakFrame ∧ c.peakFrame < c.endFrame) ∧
  List.Chain' (fun a b => a.endFrame < b.startFrame) st.1 ∧
  List.Chain' (fun a b => a.peakFrame < b.peakFrame) st.1 ∧
  ∀ c ∈ st.1, (c.endFrame : ℤ) ≤ st.2

lemma mem_of_mem_getLast? {α : Type} {l : List α} {x : α} (hx : x ∈ l.getLast?) :
    x ∈ l := by
  rcases List.mem_getLast?_eq_getLast hx with ⟨h, rfl⟩
  exact List.getLast_mem h

lemma cycleAccInv_append (cycles : List SwallowCycle) (lastEnd : ℤ) (c : SwallowCycle)
    (h : cycleAccInv (cycles, lastEnd)) (hs : lastEnd < (c.startFrame : ℤ))
    (hsp : c.startFrame < c.peakFrame) (hpe : c.peakFrame < c.endFrame) :
    cycleAccInv (cycles ++ [c], (c.endFrame : ℤ)) := by
  obtain ⟨h1, h2, h3, h4⟩ := h
  have hend : ∀ x ∈ cycles, x.endFrame < c.startFrame := by
    intro x hx
    exact_mod_cast lt_of_le_of_lt (h4 x hx) hs
  refine ⟨?_, ?_, ?_, ?_⟩
  · intro x hx
    rcases List.mem_append.1 hx with hx | hx
    · exact h1 x hx
    · rcases List.mem_singleton.1 hx with rfl
      exact ⟨hsp, hpe⟩
  · refine List.chain'_append.2 ⟨h2, List.chain'_singleton c, ?_⟩
    intro x hx y hy
    simp only [List.head?_cons, Option.mem_def, Option.some.injEq] at hy
    subst hy
    exact hend x (mem_of_mem_getLast? hx)
  · refine List.chain'_append.2 ⟨h3, List.chain'_singleton c, ?_⟩
    intro x hx y hy
    simp only [List.head?_cons, Option.mem_def, Option.some.injEq] at hy
    subst hy
    have hx2 := mem_of_mem_getLast? hx
    exact lt_trans (lt_of_lt_of_le (h1 x hx2).2 (le_of_lt (hend x hx2))) hsp
  · intro x hx
    rcases List.mem_append.1 hx with hx | hx
    · have : (x.endFrame : ℤ) < c.startFrame := by exact_mod_cast hend x hx
      have hc : (c.startFrame : ℤ) < c.endFrame := by
        exact_mod_cast lt_trans hsp hpe
      exact le_of_lt (lt_trans this hc)
    · rcases List.mem_singleton.1 hx with rfl
      exact le_refl _

lemma cycleStep_inv (s d : List ℚ) (rows : List AdvRow) (fps : ℚ)
    (st : List SwallowCycle × ℤ) (x : ℕ × ℕ) (h : cycleAccInv st) :
    cycleAccInv (cycleStep s d rows fps st x) := by
  obtain ⟨cycles, lastEnd⟩ := st
  obtain ⟨i, p⟩ := x
  simp only [cycleStep]
  split_ifs with hacc
  · exact cycleAccInv_append cycles lastEnd _ h hacc.2.2.1 hacc.2.2.2.1 hacc.2.2.2.2
  · exact h

lemma foldl_cycleStep_inv (s d : List ℚ) (rows : List AdvRow) (fps : ℚ)
    (l : List (ℕ × ℕ)) (st : List SwallowCycle × ℤ) (h : cycleAccInv st) :
    cycleAccInv (l.foldl (cycleStep s d rows fps) st) := by
  induction l generalizing st with
  | nil => exact h
  | cons a t ih => exact ih _ (cycleStep_inv s d rows fps st a h)

/-- C1.  For the cycle list returned by `detectSwallowingCycles` on any
driver series, every accepted cycle satisfies
`startFrame < peakFrame < endFrame`; consecutive cycles never overlap
(`cycle[i].endFrame < cycle[i+1].startFrame`); and the cycles are ordered
by strictly increasing `peakFrame`. -/
theorem detect_cycles_invariants (w : ℤ → ℚ) (zscoreData : List ℚ)
    (processedData : List AdvRow) (fps minPeakHeight : ℚ) (minCycleLength : ℕ) :
    (∀ c ∈ cyclesOf (detectSwallowingCycles w zscoreData processedData fps
        minPeakHeight minCycleLength),
      c.startFrame < c.peakFrame ∧ c.peakFrame < c.endFrame) ∧
    List.Chain' (fun a b => a.endFrame < b.startFrame)
      (cyclesOf (detectSwallowingCycles w zscoreData processedData fps
        minPeakHeight minCycleLength)) ∧
    List.Chain' (fun a b => a.peakFrame < b.peakFrame)
      (cyclesOf (detectSwallowingCycles w zscoreData processedData fps
        minPeakHeight minCycleLength)) := by
  unfold detectSwallowingCycles
  split
  · simp [cyclesOf]
  · have h := foldl_cycleStep_inv (savitzkyGolayFilter w zscoreData 5)
      (diffQ (savitzkyGolayFilter w zscoreData 5)) processedData fps
      ((filterPeaks (savitzkyGolayFilter w zscoreData 5) minCycleLength
        (detectPeaks (savitzkyGolayFilter w zscoreData 5) minPeakHeight 3)).enum)
      ([], -1) ⟨by simp, by simp, by simp, by simp⟩
    exact ⟨h.1, h.2.1, h.2.2.1⟩

/-- C1 witness: the invariants instantiated on a concrete 15-frame driver. -/
theorem detect_cycles_invariants_witness :
    (∀ c ∈ cyclesOf (detectSwallowingCycles (fun _ => 1) (List.replicate 15 0) [] 30
        (3 / 10) 15),
      c.startFrame < c.peakFrame ∧ c.peakFrame < c.endFrame) ∧
    List.Chain' (fun a b => a.endFrame < b.startFrame)
      (cyclesOf (detectSwallowingCycles (fun _ => 1) (List.replicate 15 0) [] 30
        (3 / 10) 15)) ∧
    List.Chain' (fun a b => a.peakFrame < b.peakFrame)
      (cyclesOf (detectSwallowingCycles (fun _ => 1) (List.replicate 15 0) [] 30
        (3 / 10) 15)) :=
  detect_cycles_invariants (fun _ => 1) (List.replicate 15 0) [] 30 (3 / 10) 15

/-- C9.  A driver series strictly shorter than the minimum cycle length
makes `detectSwallowingCycles` return the empty cycle list (the bare `[]`
of the source's early return); being a total function, it throws
nothing. -/
theorem detect_short_input_empty (w : ℤ → ℚ) (zscoreData : List ℚ)
    (processedData : List AdvRow) (fps minPeakHeight : ℚ) (minCycleLength : ℕ)
    (h : zscoreData.length < minCycleLength) :
    detectSwallowingCycles w zscoreData processedData fps minPeakHeight minCycleLength
      = Sum.inl [] := by
  simp [detectSwallowingCycles, h]

/-- C9 witness: the empty driver with the default minimum cycle length. -/
theorem detect_short_input_empty_witness :
    detectSwallowingCycles (fun _ => 1) [] [] 30 (3 / 10) 15 = Sum.inl [] :=
  detect_short_input_empty (fun _ => 1) [] [] 30 (3 / 10) 15 (by decide)

/-- C10.  In the per-frame aspiration-ratio clamping, at most one operand is
clamped: a near-zero vestibule (`|v| < 0.01`) is replaced by `0.01` and the
overlap is then used unclamped even if `|overlap| < 0.01`; the overlap is
replaced by `0.01` only when `|v| ≥ 0.01` and `|overlap| < 0.01`. -/
theorem adjustedPair_at_most_one_clamped (overlap vestibuleArea : ℚ) :
    (absQ vestibuleArea < 1 / 100 →
      adjustedPair overlap vestibuleArea = (overlap, 1 / 100)) ∧
    (1 / 100 ≤ absQ vestibuleArea → absQ overlap < 1 / 100 →
      adjustedPair overlap vestibuleArea = (1 / 100, vestibuleArea)) ∧
    (1 / 100 ≤ absQ vestibuleArea → 1 / 100 ≤ absQ overlap →
      adjustedPair overlap vestibuleArea = (overlap, vestibuleArea)) ∧
    ¬((adjustedPair overlap vestibuleArea).1 ≠ overlap ∧
      (adjustedPair overlap vestibuleArea).2 ≠ vestibuleArea) := by
  unfold adjustedPair
  split_ifs with hv ho
  · exact ⟨fun _ => rfl, fun h2 => absurd hv (not_lt.2 h2),
      fun h2 _ => absurd hv (not_lt.2 h2), by simp⟩
  · exact ⟨fun h1 => absurd h1 hv, fun _ _ => rfl,
      fun _ h3 => absurd ho (not_lt.2 h3), by simp⟩
  · exact ⟨fun h1 => absurd h1 hv, fun _ h2 => absurd h2 ho,
      fun _ _ => rfl, by simp⟩

/-- C10 witness: with `|vestibule| = 0.005 < 0.01`, the vestibule is clamped
and the overlap `0.005` is used unclamped although it is below `0.01`. -/
theorem adjustedPair_at_most_one_clamped_witness :
    absQ ((1 : ℚ) / 200) < 1 / 100 ∧
      adjustedPair (1 / 200) (1 / 200) = (1 / 200, 1 / 100) :=
  ⟨by decide, (adjustedPair_at_most_one_clamped (1 / 200) (1 / 200)).1 (by decide)⟩

/-! ### Concrete inputs used by witnesses and counterexamples -/

/-- The all-absent processed row. -/
def blankRow : AdvRow := default

/-- A row carrying only a standardized pharynx sample. -/
def pharynxRow (q : ℚ) : AdvRow := { blankRow with zscore_pharynx := some q }

/-- Two frames whose standardized pharynx samples are `-2` and `-8`: the
only series realizing the percentile magnitudes 2 and 8, both negative. -/
def pharynxRowsNeg : List AdvRow := [pharynxRow (-2), pharynxRow (-8)]

/-- A row with a pharynx sample and a present overlap/vestibule pair. -/
def aspPresentRow (o v : ℚ) : AdvRow :=
  { blankRow with
    zscore_pharynx := some 0
    normalized_bolus_vestibule_overlap := some o
    normalized_vestibule := some v }

/-- One frame whose overlap/vestibule ratio is exactly `0.2`. -/
def aspThresholdRows : List AdvRow := [aspPresentRow (1 / 5) 1]

/-- One frame whose overlap/vestibule ratio is `0.199999`. -/
def aspBelowRows : List AdvRow := [aspPresentRow (199999 / 1000000) 1]

/-- One frame with a present overlap/vestibule pair (ratio 1) but no
standardized pharynx sample. -/
def aspNoPharynxRows : List AdvRow :=
  [{ blankRow with
      normalized_bolus_vestibule_overlap := some 1
      normalized_vestibule := some 1 }]

/-- One frame with pharynx, hyoid, vestibule and overlap data but no
standardized UES sample. -/
def localityRows : List AdvRow :=
  [{ blankRow with
      zscore_pharynx := some 1
      zscore_hyoid_c4_distance := some (.num 2)
      normalized_bolus_vestibule_overlap := some 1
      normalized_vestibule := some 2
      zscore_vestibule := some 3 }]

/-- One frame with hyoid and overlap/vestibule data (ratio 1, aspiration
computable) but no standardized pharynx sample. -/
def earlyReturnRows : List AdvRow :=
  [{ blankRow with
      normalized_bolus_vestibule_overlap := some 2
      normalized_vestibule := some 2
      zscore_hyoid_c4_distance := some (.num 1) }]

/-- A six-frame recording whose first hyoid sample is absent (all other
measurements present, calibration length 2 everywhere). -/
def mixedAreas : List AreaInput :=
  [⟨1, 1, 1, 1, 1, some 2, none, some 1⟩,
   ⟨2, 1, 1, 1, 1, some 2, some 1, some 1⟩,
   ⟨3, 1, 1, 1, 1, some 2, some 2, some 1⟩,
   ⟨4, 1, 1, 1, 1, some 2, some 3, some 1⟩,
   ⟨5, 1, 1, 1, 1, some 2, some 2, some 1⟩,
   ⟨6, 1, 1, 1, 1, some 2, some 1, some 1⟩]

/-! ### C4: the PCR absolute-value branch -/

/-- C4 (amended).  When both percentiles of the cycle's standardized
pharynx series are negative, the reported PCR is
`|5th percentile| / |95th percentile|`. -/
theorem pcr_both_negative_abs (startFrame endFrame cycleNumber : ℕ)
    (processedData : List AdvRow)
    (hne : ¬(cyclePharynx startFrame endFrame processedData).isEmpty)
    (h95 : p95Of (cyclePharynx startFrame endFrame processedData) < 0)
    (h5 : p5Of (cyclePharynx startFrame endFrame processedData) < 0) :
    (extractCycleParameters startFrame endFrame processedData cycleNumber).PCR
      = some (absQ (p5Of (cyclePharynx startFrame endFrame processedData))
          / absQ (p95Of (cyclePharynx startFrame endFrame processedData))) := by
  simp only [extractCycleParameters, hne, if_false, Bool.false_eq_true, ite_false]
  simp only [pcrSection, if_pos (And.intro h95 h5)]

/-- C4 witness: on the series with pharynx z-scores `[-2, -8]` both
percentiles are negative and the theorem applies, giving
`PCR = |-8| / |-2| = 4`. -/
theorem pcr_both_negative_abs_witness :
    p95Of (cyclePharynx 0 1 pharynxRowsNeg) < 0 ∧
    p5Of (cyclePharynx 0 1 pharynxRowsNeg) < 0 ∧
    (extractCycleParameters 0 1 pharynxRowsNeg 1).PCR
      = some (absQ (p5Of (cyclePharynx 0 1 pharynxRowsNeg))
          / absQ (p95Of (cyclePharynx 0 1 pharynxRowsNeg))) :=
  ⟨by decide, by decide,
    pcr_both_negative_abs 0 1 1 pharynxRowsNeg (by decide) (by decide) (by decide)⟩

/-- C4 counterexample.  The spec's concrete instance cannot occur: sorting
ascending forces 5th percentile ≤ 95th percentile, so the only series
realizing the magnitudes 2 and 8 with both percentiles negative has
5th = `-8` and 95th = `-2`, and the reported PCR is `8/2 = 4`, not
`2/8 = 0.25`. -/
theorem pcr_percentile_order_counterexample :
    (extractCycleParameters 0 1 pharynxRowsNeg 1).PCR = some 4 ∧
    (extractCycleParameters 0 1 pharynxRowsNeg 1).PCR_p5 = some (-8) ∧
    (extractCycleParameters 0 1 pharynxRowsNeg 1).PCR_p95 = some (-2) ∧
    (4 : ℚ) ≠ 1 / 4 := by
  exact ⟨by decide, by decide, by decide, by norm_num⟩

/-! ### C5/C6: aspiration risk and the early return -/

lemma exists_mem_enumFrom {α : Type} {l : List α} {r : α} (hr : r ∈ l) (n : ℕ) :
    ∃ i, (i, r) ∈ l.enumFrom n := by
  induction l generalizing n with
  | nil => cases hr
  | cons a t ih =>
    rcases List.mem_cons.1 hr with rfl | hr2
    · exact ⟨n, by simp [List.enumFrom]⟩
    · obtain ⟨i, hi⟩ := ih hr2 (n + 1)
      exact ⟨i, by simp [List.enumFrom, hi]⟩

lemma overlapDetails_ne_nil (cycleData : List AdvRow) (startFrame : ℕ) {r : AdvRow}
    (hr : r ∈ cycleData) (ho : r.normalized_bolus_vestibule_overlap.isSome)
    (hv : r.normalized_vestibule.isSome) :
    overlapDetailsOf cycleData startFrame ≠ [] := by
  intro hnil
  obtain ⟨i, hi⟩ := exists_mem_enumFrom hr 0
  have := List.filterMap_eq_nil_iff.1 hnil (i, r) (by simpa [List.enum] using hi)
  obtain ⟨o, ho2⟩ := Option.isSome_iff_exists.1 ho
  obtain ⟨v, hv2⟩ := Option.isSome_iff_exists.1 hv
  simp [ho2, hv2] at this

/-- C5 (amended).  For every cycle that has a standardized pharynx sample
(without one the function returns early, see the C5 counterexample) and at
least one frame with both the normalized overlap and vestibule present,
the reported risk is true exactly when the maximum per-frame adjusted
ratio is `≥ 0.2` and false exactly when it is `< 0.2`; in particular a
maximum of exactly `0.2` is flagged true and `0.199999` false. -/
theorem aspiration_threshold_inclusive (startFrame endFrame cycleNumber : ℕ)
    (processedData : List AdvRow)
    (hph : ¬(cyclePharynx startFrame endFrame processedData).isEmpty)
    (hfr : ∃ r ∈ cycleSlice startFrame endFrame processedData,
        r.normalized_bolus_vestibule_overlap.isSome ∧ r.normalized_vestibule.isSome) :
    (∃ m, (extractCycleParameters startFrame endFrame processedData
          cycleNumber).maxOverlapRatio = some m ∧
      m = maxOfList ((overlapDetailsOf (cycleSlice startFrame endFrame processedData)
            startFrame).map (·.ratio)) ∧
      ((extractCycleParameters startFrame endFrame processedData
          cycleNumber).aspirationRisk = some true ↔ 1 / 5 ≤ m) ∧
      ((extractCycleParameters startFrame endFrame processedData
          cycleNumber).aspirationRisk = some false ↔ m < 1 / 5)) ∧
    (extractCycleParameters 0 0 aspThresholdRows 1).aspirationRisk = some true ∧
    (extractCycleParameters 0 0 aspBelowRows 1).aspirationRisk = some false := by
  obtain ⟨r, hr, ho, hv⟩ := hfr
  have hdet := overlapDetails_ne_nil (cycleSlice startFrame endFrame processedData)
    startFrame hr ho hv
  have hbo : ¬((cycleSlice startFrame endFrame processedData).filterMap
      (·.normalized_bolus_vestibule_overlap)).isEmpty := by
    simp only [List.isEmpty_iff, List.filterMap_eq_nil_iff]
    intro hall
    obtain ⟨o, ho2⟩ := Option.isSome_iff_exists.1 ho
    have := hall r hr
    simp [ho2] at this
  have hve : ¬((cycleSlice startFrame endFrame processedData).filterMap
      (·.normalized_vestibule)).isEmpty := by
    simp only [List.isEmpty_iff, List.filterMap_eq_nil_iff]
    intro hall
    obtain ⟨v, hv2⟩ := Option.isSome_iff_exists.1 hv
    have := hall r hr
    simp [hv2] at this
  have hrat : ¬((overlapDetailsOf (cycleSlice startFrame endFrame processedData)
      startFrame).map (·.ratio)).isEmpty := by
    simpa [List.isEmpty_iff] using hdet
  have hsec : aspirationSection (cycleSlice startFrame endFrame processedData) startFrame
      = (some (decide ((1 : ℚ) / 5 ≤ maxOfList ((overlapDetailsOf
          (cycleSlice startFrame endFrame processedData) startFrame).map (·.ratio)))),
        some (maxOfList ((overlapDetailsOf
          (cycleSlice startFrame endFrame processedData) startFrame).map (·.ratio))),
        some (overlapDetailsOf (cycleSlice startFrame endFrame processedData)
          startFrame)) := by
    simp only [aspirationSection]
    rw [if_pos ⟨hbo, hve⟩, if_pos hrat]
  refine ⟨⟨maxOfList ((overlapDetailsOf (cycleSlice startFrame endFrame processedData)
      startFrame).map (·.ratio)), ?_, rfl, ?_, ?_⟩, by decide, by decide⟩
  · simp only [extractCycleParameters, hph, if_false, Bool.false_eq_true, ite_false, hsec]
  · simp only [extractCycleParameters, hph, if_false, Bool.false_eq_true, ite_false, hsec,
      Option.some.injEq, decide_eq_true_eq]
  · simp only [extractCycleParameters, hph, if_false, Bool.false_eq_true, ite_false, hsec,
      Option.some.injEq, decide_eq_false_iff_not, not_le]

/-- C5 witness: a one-frame cycle with ratio exactly `0.2` satisfies the
hypotheses; the reported risk is true. -/
theorem aspiration_threshold_inclusive_witness :
    (extractCycleParameters 0 0 aspThresholdRows 1).maxOverlapRatio = some (1 / 5) ∧
    (extractCycleParameters 0 0 aspThresholdRows 1).aspirationRisk = some true := by
  obtain ⟨⟨m, hm, hmax, hiff, _⟩, _, _⟩ :=
    aspiration_threshold_inclusive 0 0 1 aspThresholdRows (by decide)
      ⟨aspPresentRow (1 / 5) 1, by decide, by decide, by decide⟩
  have hm1 : m = 1 / 5 := by rw [hmax]; decide
  exact ⟨hm1 ▸ hm, hiff.2 (by rw [hm1])⟩

/-- C5 counterexample.  A cycle whose only frame has both overlap and
vestibule present with ratio `1 ≥ 0.2`, but no standardized pharynx
sample: the claim requires `aspirationRisk = true`, yet the function
returns early and reports it absent. -/
theorem aspiration_requires_pharynx_counterexample :
    ((aspNoPharynxRows.headD blankRow).normalized_bolus_vestibule_overlap).isSome ∧
    ((aspNoPharynxRows.headD blankRow).normalized_vestibule).isSome ∧
    maxOfList ((overlapDetailsOf (cycleSlice 0 0 aspNoPharynxRows) 0).map (·.ratio)) = 1 ∧
    (1 : ℚ) / 5 ≤ 1 ∧
    (extractCycleParameters 0 0 aspNoPharynxRows 1).aspirationRisk = none := by decide

/-- C6 (amended).  If the standardized pharynx series of a cycle is
entirely absent, `extractCycleParameters` returns early with *every*
parameter absent, not only the PCR.  For the other supporting series the
claimed locality holds: with the UES series absent (and a pharynx sample
present) only the UES landmarks are absent, while the PCR,
aspiration-risk, HYB and LVC outputs are still computed, each equal to its
own section's value, which does not read the UES series. -/
theorem landmark_locality (startFrame endFrame cycleNumber : ℕ)
    (processedData : List AdvRow) :
    (cyclePharynx startFrame endFrame processedData = [] →
      extractCycleParameters startFrame endFrame processedData cycleNumber
        = emptyCycleParams) ∧
    (¬(cyclePharynx startFrame endFrame processedData).isEmpty →
      (cycleSlice startFrame endFrame processedData).filterMap (·.zscore_ues_length) = [] →
      ((extractCycleParameters startFrame endFrame processedData cycleNumber).UESO = none ∧
       (extractCycleParameters startFrame endFrame processedData cycleNumber).UESC = none ∧
       (extractCycleParameters startFrame endFrame processedData
          cycleNumber).UES_peakFrame = none ∧
       (extractCycleParameters startFrame endFrame processedData
          cycleNumber).UES_peakValue = none) ∧
      (extractCycleParameters startFrame endFrame processedData cycleNumber).PCR
        = some (pcrSection (cyclePharynx startFrame endFrame processedData)).PCR ∧
      (extractCycleParameters startFrame endFrame processedData cycleNumber).aspirationRisk
        = (aspirationSection (cycleSlice startFrame endFrame processedData) startFrame).1 ∧
      (extractCycleParameters startFrame endFrame processedData cycleNumber).HYB
        = (hybSection processedData (cycleSlice startFrame endFrame processedData)
            startFrame cycleNumber).map (·.hyb) ∧
      (extractCycleParameters startFrame endFrame processedData cycleNumber).LVC
        = (lvcSection processedData (cycleSlice startFrame endFrame processedData)
            startFrame cycleNumber).map (·.lvc)) := by
  constructor
  · intro h
    simp [extractCycleParameters, h]
  · intro hph hues
    have hu : (uesSection processedData (cycleSlice startFrame endFrame processedData)
        startFrame cycleNumber) = none := by
      simp [uesSection, hues]
    refine ⟨⟨?_, ?_, ?_, ?_⟩, ?_, ?_, ?_, ?_⟩ <;>
      simp [extractCycleParameters, hph, hu]

/-- C6 witness: a frame with pharynx, hyoid, vestibule and overlap data but
no UES sample — only the UES landmarks are absent, the other parameters
are computed. -/
theorem landmark_locality_witness :
    (((extractCycleParameters 0 0 localityRows 1).UESO = none ∧
      (extractCycleParameters 0 0 localityRows 1).UESC = none ∧
      (extractCycleParameters 0 0 localityRows 1).UES_peakFrame = none ∧
      (extractCycleParameters 0 0 localityRows 1).UES_peakValue = none) ∧
     (extractCycleParameters 0 0 localityRows 1).PCR
       = some (pcrSection (cyclePharynx 0 0 localityRows)).PCR ∧
     (extractCycleParameters 0 0 localityRows 1).aspirationRisk
       = (aspirationSection (cycleSlice 0 0 localityRows) 0).1 ∧
     (extractCycleParameters 0 0 localityRows 1).HYB
       = (hybSection localityRows (cycleSlice 0 0 localityRows) 0 1).map (·.hyb) ∧
     (extractCycleParameters 0 0 localityRows 1).LVC
       = (lvcSection localityRows (cycleSlice 0 0 localityRows) 0 1).map (·.lvc)) :=
  (landmark_locality 0 0 1 localityRows).2 (by decide) (by decide)

/-- C6 counterexample.  A cycle whose pharynx series is absent but whose
hyoid series and overlap/vestibule pair are present (aspiration ratio 1):
the claim says only the pharynx-derived parameter may be absent, yet the
function returns the early object with every parameter absent. -/
theorem early_return_drops_all_counterexample :
    (cycleSlice 0 0 earlyReturnRows).filterMap (·.zscore_hyoid_c4_distance) ≠ [] ∧
    maxOfList ((overlapDetailsOf (cycleSlice 0 0 earlyReturnRows) 0).map (·.ratio)) = 1 ∧
    extractCycleParameters 0 0 earlyReturnRows 1 = emptyCycleParams := by decide

/-! ### C2: the search-window widening is dead code -/

lemma normRow_cycleNumber (sm : SmoothedSeries) (ref : ℚ) (i : ℕ) (a : AreaInput) :
    (normRow sm ref i a).cycleNumber = none := by
  unfold normRow
  cases effectiveC2C4 sm.c2c4_length a.c2c4_length i with
  | none => rfl
  | some c =>
    dsimp only
    split_ifs <;> rfl

lemma applyRowZ_cycleNumber (A : GroupStatsQ) (D : GroupStatsJ) (r : AdvRow) :
    (applyRowZ A D r).cycleNumber = r.cycleNumber := rfl

/-- C2.  The widening of the landmark search windows can never happen: the
rows `processAdvancedData` produces carry no `cycleNumber` field, so
`allCycles = processedData.filter(row => row.cycleNumber !== undefined)`
is always empty and both search limits collapse to the cycle's own
boundaries (`startFrame` and `startFrame + seriesLength - 1`), never the
previous cycle's end or the next cycle's start. -/
theorem search_windows_never_widened (w : ℤ → ℚ) (sqrtQ : ℚ → ℚ)
    (originalAreas : List AreaInput) (referenceC2C4 : ℚ)
    (startFrame seriesLength cycleNumber : ℕ) :
    (∀ r ∈ (processAdvancedData w sqrtQ originalAreas referenceC2C4).processedData,
        r.cycleNumber = none) ∧
    (∀ rows : List AdvRow, (∀ r ∈ rows, r.cycleNumber = none) →
      widenedSearchStart rows startFrame cycleNumber = startFrame ∧
      widenedSearchEnd rows startFrame seriesLength cycleNumber
        = (startFrame : ℤ) + seriesLength - 1) := by
  constructor
  · intro r hr
    simp only [processAdvancedData] at hr
    obtain ⟨r0, hr0, rfl⟩ := List.mem_map.1 hr
    obtain ⟨p, _, rfl⟩ := List.mem_map.1 hr0
    rw [applyRowZ_cycleNumber, normRow_cycleNumber]
  · intro rows hall
    have hcyc : allCyclesOf rows = [] := by
      rw [allCyclesOf, List.filter_eq_nil_iff]
      intro r hr
      simp [hall r hr]
    constructor
    · simp [widenedSearchStart, hcyc]
    · simp [widenedSearchEnd, hcyc]

/-- C2 witness: on a concrete cycle-field-free row list, the backward limit
is the cycle's own `startFrame` (7) and the forward limit its own last
sample (7 + 4 - 1 = 10). -/
theorem search_windows_never_widened_witness :
    widenedSearchStart [blankRow] 7 2 = 7 ∧
    widenedSearchEnd [blankRow] 7 4 2 = (7 : ℤ) + 4 - 1 :=
  (search_windows_never_widened (fun _ => 1) (fun _ => 0) [] 0 7 4 2).2 [blankRow]
    (by decide)

/-! ### C3: series lengths and the compaction of the distance series -/

lemma normRow_frame (sm : SmoothedSeries) (ref : ℚ) (i : ℕ) (a : AreaInput) :
    (normRow sm ref i a).frame = i := by
  unfold normRow
  cases effectiveC2C4 sm.c2c4_length a.c2c4_length i with
  | none => rfl
  | some c =>
    dsimp only
    split_ifs <;> rfl

lemma applyRowZ_frame (A : GroupStatsQ) (D : GroupStatsJ) (r : AdvRow) :
    (applyRowZ A D r).frame = r.frame := rfl

lemma processedData_length (w : ℤ → ℚ) (sqrtQ : ℚ → ℚ)
    (originalAreas : List AreaInput) (referenceC2C4 : ℚ) :
    (processAdvancedData w sqrtQ originalAreas referenceC2C4).processedData.length
      = originalAreas.length := by
  simp [processAdvancedData]

/-- C3 (amended).  The per-frame row list of `processAdvancedData` has
length equal to the frame count and row `i` belongs to frame `i`, and the
five smoothed area series keep the frame count; but the smoothed hyoid,
UES and C2C4 series — whose absent samples are excluded before smoothing —
have length equal to the number of present (for C2C4: present and
positive) samples, so their index `j` corresponds to the `j`-th present
sample, not to frame `j`. -/
theorem derived_series_lengths (w : ℤ → ℚ) (sqrtQ : ℚ → ℚ)
    (originalAreas : List AreaInput) (referenceC2C4 : ℚ) (i : ℕ)
    (hi : i < originalAreas.length) :
    (processAdvancedData w sqrtQ originalAreas referenceC2C4).processedData.length
        = originalAreas.length ∧
    ((processAdvancedData w sqrtQ originalAreas referenceC2C4).processedData.getD i
        default).frame = i ∧
    (smoothedOf w originalAreas).pharynx.length = originalAreas.length ∧
    (smoothedOf w originalAreas).vestibule.length = originalAreas.length ∧
    (smoothedOf w originalAreas).bolus.length = originalAreas.length ∧
    (smoothedOf w originalAreas).bolus_pharynx_overlap.length = originalAreas.length ∧
    (smoothedOf w originalAreas).bolus_vestibule_overlap.length = originalAreas.length ∧
    (smoothedOf w originalAreas).hyoid_c4_distance.length
        = (originalAreas.filterMap (·.hyoid_c4_distance)).length ∧
    (smoothedOf w originalAreas).ues_length.length
        = (originalAreas.filterMap (·.ues_length)).length ∧
    (smoothedOf w originalAreas).c2c4_length.length
        = (originalAreas.filterMap fun a =>
            a.c2c4_length.bind fun d => if 0 < d then some d else none).length := by
  refine ⟨processedData_length w sqrtQ originalAreas referenceC2C4, ?_,
    by simp [smoothedOf, savitzkyGolayFilter_length],
    by simp [smoothedOf, savitzkyGolayFilter_length],
    by simp [smoothedOf, savitzkyGolayFilter_length],
    by simp [smoothedOf, savitzkyGolayFilter_length],
    by simp [smoothedOf, savitzkyGolayFilter_length],
    by simp [smoothedOf, savitzkyGolayFilter_length],
    by simp [smoothedOf, savitzkyGolayFilter_length],
    by simp [smoothedOf, savitzkyGolayFilter_length]⟩
  have hget : (processAdvancedData w sqrtQ originalAreas referenceC2C4).processedData[i]?
      = (originalAreas.enum[i]?).map fun p =>
          applyRowZ
            (calculateGroupZScoreQ sqrtQ areaGetters
              (originalAreas.enum.map fun p =>
                normRow (smoothedOf w originalAreas) referenceC2C4 p.1 p.2))
            (calculateGroupZScoreJ sqrtQ distanceGetters
              (originalAreas.enum.map fun p =>
                normRow (smoothedOf w originalAreas) referenceC2C4 p.1 p.2))
            (normRow (smoothedOf w originalAreas) referenceC2C4 p.1 p.2) := by
    simp [processAdvancedData, List.getElem?_map, Option.map_map]
    rfl
  rw [List.getD_eq_getElem?_getD, hget]
  have henum : originalAreas.enum[i]? = (originalAreas[i]?).map fun a => (i, a) := by
    simp [List.getElem?_enum]
  rw [henum, List.getElem?_eq_getElem hi]
  simp [applyRowZ_frame, normRow_frame]

/-- C3 witness: the length facts instantiated on a six-frame recording
whose first hyoid sample is absent. -/
theorem derived_series_lengths_witness :
    (processAdvancedData (fun _ => 1) (fun _ => 0) mixedAreas 2).processedData.length
        = mixedAreas.length ∧
    ((processAdvancedData (fun _ => 1) (fun _ => 0) mixedAreas 2).processedData.getD 0
        default).frame = 0 ∧
    (smoothedOf (fun _ => 1) mixedAreas).pharynx.length = mixedAreas.length ∧
    (smoothedOf (fun _ => 1) mixedAreas).vestibule.length = mixedAreas.length ∧
    (smoothedOf (fun _ => 1) mixedAreas).bolus.length = mixedAreas.length ∧
    (smoothedOf (fun _ => 1) mixedAreas).bolus_pharynx_overlap.length
        = mixedAreas.length ∧
    (smoothedOf (fun _ => 1) mixedAreas).bolus_vestibule_overlap.length
        = mixedAreas.length ∧
    (smoothedOf (fun _ => 1) mixedAreas).hyoid_c4_distance.length
        = (mixedAreas.filterMap (·.hyoid_c4_distance)).length ∧
    (smoothedOf (fun _ => 1) mixedAreas).ues_length.length
        = (mixedAreas.filterMap (·.ues_length)).length ∧
    (smoothedOf (fun _ => 1) mixedAreas).c2c4_length.length
        = (mixedAreas.filterMap fun a =>
            a.c2c4_length.bind fun d => if 0 < d then some d else none).length :=
  derived_series_lengths (fun _ => 1) (fun _ => 0) mixedAreas 2 0 (by decide)

/-- C3 counterexample.  With one absent hyoid sample among six frames, the
smoothed hyoid series has five entries, not six: not every derived series
has length equal to the frame count. -/
theorem smoothed_series_shorter_counterexample :
    mixedAreas.length = 6 ∧
    (smoothedOf (fun _ => 1) mixedAreas).hyoid_c4_distance.length = 5 ∧
    (5 : ℕ) ≠ 6 := by decide

/-- A one-frame recording: pharynx 1, vestibule 2, bolus 3, overlaps 4 and
5, calibration length 2, hyoid distance 3, UES length 4. -/
def areasOne : List AreaInput := [⟨1, 2, 3, 4, 5, some 2, some 3, some 4⟩]

/-! ### C7: scale calibration -/

/-- The row `processAdvancedData` produces for frame `i`. -/
def processedRow (w : ℤ → ℚ) (sqrtQ : ℚ → ℚ) (originalAreas : List AreaInput)
    (referenceC2C4 : ℚ) (i : ℕ) : AdvRow :=
  (processAdvancedData w sqrtQ originalAreas referenceC2C4).processedData.getD i default

lemma processedRow_eq (w : ℤ → ℚ) (sqrtQ : ℚ → ℚ) (originalAreas : List AreaInput)
    (referenceC2C4 : ℚ) (i : ℕ) (a : AreaInput) (ha : originalAreas[i]? = some a) :
    processedRow w sqrtQ originalAreas referenceC2C4 i
      = applyRowZ
          (calculateGroupZScoreQ sqrtQ areaGetters
            (originalAreas.enum.map fun p =>
              normRow (smoothedOf w originalAreas) referenceC2C4 p.1 p.2))
          (calculateGroupZScoreJ sqrtQ distanceGetters
            (originalAreas.enum.map fun p =>
              normRow (smoothedOf w originalAreas) referenceC2C4 p.1 p.2))
          (normRow (smoothedOf w originalAreas) referenceC2C4 i a) := by
  unfold processedRow
  have hget : (processAdvancedData w sqrtQ originalAreas referenceC2C4).processedData[i]?
      = (originalAreas.enum[i]?).map fun p =>
          applyRowZ
            (calculateGroupZScoreQ sqrtQ areaGetters
              (originalAreas.enum.map fun p =>
                normRow (smoothedOf w originalAreas) referenceC2C4 p.1 p.2))
            (calculateGroupZScoreJ sqrtQ distanceGetters
              (originalAreas.enum.map fun p =>
                normRow (smoothedOf w originalAreas) referenceC2C4 p.1 p.2))
            (normRow (smoothedOf w originalAreas) referenceC2C4 p.1 p.2) := by
    simp [processAdvancedData, List.getElem?_map, Option.map_map]
    rfl
  rw [List.getD_eq_getElem?_getD, hget]
  have henum : originalAreas.enum[i]? = (originalAreas[i]?).map fun x => (i, x) := by
    simp [List.getElem?_enum]
  rw [henum, ha]
  rfl

lemma jLookupMul_of_lt (l : List ℚ) (i : ℕ) (f : ℚ) (hin : i < l.length) :
    jLookupMul l i f = .num (l.getD i 0 * f) := by
  unfold jLookupMul
  rw [List.get?_eq_getElem?, List.getElem?_eq_getElem hin]
  simp [List.getD_eq_getElem?_getD, List.getElem?_eq_getElem hin]

/-- C7.  For a frame whose effective calibration length is present and
strictly positive, the scale is `referenceC2C4 / c2c4Length`: every
normalized area value is the smoothed value times the scale, and every
normalized distance value is the smoothed series' value at the frame's
lookup index times the squared scale (when that index is within the
compacted smoothed series).  For a frame whose effective calibration
length is missing or non-positive, every normalized value of the frame is
absent. -/
theorem calibration_scaling (w : ℤ → ℚ) (sqrtQ : ℚ → ℚ)
    (originalAreas : List AreaInput) (referenceC2C4 : ℚ) (i : ℕ) (a : AreaInput)
    (ha : originalAreas[i]? = some a) :
    (∀ c2c4Length : ℚ,
      effectiveC2C4 (smoothedOf w originalAreas).c2c4_length a.c2c4_length i
          = some c2c4Length →
      0 < c2c4Length →
      (processedRow w sqrtQ originalAreas referenceC2C4 i).normalized_pharynx
          = some ((smoothedOf w originalAreas).pharynx.getD i 0
              * (referenceC2C4 / c2c4Length)) ∧
      (processedRow w sqrtQ originalAreas referenceC2C4 i).normalized_vestibule
          = some ((smoothedOf w originalAreas).vestibule.getD i 0
              * (referenceC2C4 / c2c4Length)) ∧
      (processedRow w sqrtQ originalAreas referenceC2C4 i).normalized_bolus
          = some ((smoothedOf w originalAreas).bolus.getD i 0
              * (referenceC2C4 / c2c4Length)) ∧
      (processedRow w sqrtQ originalAreas referenceC2C4 i).normalized_bolus_pharynx_overlap
          = some ((smoothedOf w originalAreas).bolus_pharynx_overlap.getD i 0
              * (referenceC2C4 / c2c4Length)) ∧
      (processedRow w sqrtQ originalAreas referenceC2C4 i).normalized_bolus_vestibule_overlap
          = some ((smoothedOf w originalAreas).bolus_vestibule_overlap.getD i 0
              * (referenceC2C4 / c2c4Length)) ∧
      (i < (smoothedOf w originalAreas).hyoid_c4_distance.length →
        (processedRow w sqrtQ originalAreas referenceC2C4 i).normalized_hyoid_c4_distance
          = some (JNum.num ((smoothedOf w originalAreas).hyoid_c4_distance.getD i 0
              * (referenceC2C4 / c2c4Length * (referenceC2C4 / c2c4Length))))) ∧
      (i < (smoothedOf w originalAreas).ues_length.length →
        (processedRow w sqrtQ originalAreas referenceC2C4 i).normalized_ues_length
          = some (JNum.num ((smoothedOf w originalAreas).ues_length.getD i 0
              * (referenceC2C4 / c2c4Length * (referenceC2C4 / c2c4Length)))))) ∧
    ((∀ c2c4Length : ℚ,
        effectiveC2C4 (smoothedOf w originalAreas).c2c4_length a.c2c4_length i
            = some c2c4Length →
        c2c4Length ≤ 0) →
      (processedRow w sqrtQ originalAreas referenceC2C4 i).normalized_pharynx = none ∧
      (processedRow w sqrtQ originalAreas referenceC2C4 i).normalized_vestibule = none ∧
      (processedRow w sqrtQ originalAreas referenceC2C4 i).normalized_bolus = none ∧
      (processedRow w sqrtQ originalAreas referenceC2C4
        i).normalized_bolus_pharynx_overlap = none ∧
      (processedRow w sqrtQ originalAreas referenceC2C4
        i).normalized_bolus_vestibule_overlap = none ∧
      (processedRow w sqrtQ originalAreas referenceC2C4
        i).normalized_hyoid_c4_distance = none ∧
      (processedRow w sqrtQ originalAreas referenceC2C4 i).normalized_ues_length
        = none) := by
  rw [processedRow_eq w sqrtQ originalAreas referenceC2C4 i a ha]
  constructor
  · intro c2c4Length hc hpos
    show (normRow (smoothedOf w originalAreas) referenceC2C4 i a).normalized_pharynx
        = _ ∧ _
    unfold normRow
    rw [hc]
    dsimp only
    rw [if_pos hpos]
    refine ⟨rfl, rfl, rfl, rfl, rfl, fun hin => ?_, fun hin => ?_⟩
    · exact congrArg some (jLookupMul_of_lt _ _ _ hin)
    · exact congrArg some (jLookupMul_of_lt _ _ _ hin)
  · intro hnp
    show (normRow (smoothedOf w originalAreas) referenceC2C4 i a).normalized_pharynx
        = _ ∧ _
    unfold normRow
    cases hc : effectiveC2C4 (smoothedOf w originalAreas).c2c4_length a.c2c4_length i with
    | none => exact ⟨rfl, rfl, rfl, rfl, rfl, rfl, rfl⟩
    | some c =>
      dsimp only
      rw [if_neg (not_lt.2 (hnp c hc))]
      exact ⟨rfl, rfl, rfl, rfl, rfl, rfl, rfl⟩

/-- C7 witness: a one-frame recording with calibration length 2 and
reference 6 (scale 3): the normalized pharynx is `smoothed × 3` and the
normalized hyoid distance is `smoothed × 9`. -/
theorem calibration_scaling_witness :
    effectiveC2C4 (smoothedOf (fun _ => 1) areasOne).c2c4_length (some 2) 0 = some 2 ∧
    (processedRow (fun _ => 1) (fun _ => 0) areasOne 6 0).normalized_pharynx
      = some ((smoothedOf (fun _ => 1) areasOne).pharynx.getD 0 0 * (6 / 2)) ∧
    (processedRow (fun _ => 1) (fun _ => 0) areasOne 6 0).normalized_hyoid_c4_distance
      = some (JNum.num ((smoothedOf (fun _ => 1) areasOne).hyoid_c4_distance.getD 0 0
          * (6 / 2 * (6 / 2)))) := by
  have h := calibration_scaling (fun _ => 1) (fun _ => 0) areasOne 6 0
    ⟨1, 2, 3, 4, 5, some 2, some 3, some 4⟩ (by decide)
  exact ⟨by decide, (h.1 2 (by decide) (by norm_num)).1,
    (h.1 2 (by decide) (by norm_num)).2.2.2.2.2.1 (by decide)⟩

/-! ### C8: grouped standardization -/

/-- The five standardized area-group accessors. -/
def zscoreAreaGetters : List (AdvRow → Option ℚ) :=
  [fun r => r.zscore_bolus_pharynx_overlap,
   fun r => r.zscore_bolus_vestibule_overlap,
   fun r => r.zscore_pharynx,
   fun r => r.zscore_vestibule,
   fun r => r.zscore_bolus]

/-- The two standardized distance-group accessors. -/
def zscoreDistGetters : List (AdvRow → Option JNum) :=
  [fun r => r.zscore_hyoid_c4_distance,
   fun r => r.zscore_ues_length]

/-- The rational payload of a standardized distance value (`null` and
`NaN` are not numbers). -/
def collectNum : Option JNum → Option ℚ
  | some (.num q) => some q
  | _ => none

/-- All non-absent standardized area values, pooled parameter-major. -/
def pooledAreaZ (rows : List AdvRow) : List ℚ :=
  (zscoreAreaGetters.map fun g => rows.filterMap g).flatten

/-- All numeric standardized distance values, pooled parameter-major. -/
def pooledDistZ (rows : List AdvRow) : List ℚ :=
  (zscoreDistGetters.map fun g => rows.filterMap fun r => collectNum (g r)).flatten

lemma varQ_nil : varQ [] = 0 := by simp [varQ]

lemma sum_map_sub (l : List ℚ) (c : ℚ) :
    (l.map fun x => x - c).sum = l.sum - l.length * c := by
  induction l with
  | nil => simp
  | cons a t ih =>
    simp only [List.map_cons, List.sum_cons, ih, List.length_cons]
    push_cast
    ring

lemma sum_map_div (l : List ℚ) (c : ℚ) :
    (l.map fun x => x / c).sum = l.sum / c := by
  induction l with
  | nil => simp
  | cons a t ih => simp [ih, add_div]

lemma length_cast_ne_zero {l : List ℚ} (hne : l ≠ []) : (l.length : ℚ) ≠ 0 := by
  exact_mod_cast fun h => hne (List.length_eq_zero.1 (by exact_mod_cast h))

lemma sum_map_center (l : List ℚ) (hne : l ≠ []) :
    (l.map fun x => x - meanQ l).sum = 0 := by
  rw [sum_map_sub, meanQ]
  have hn := length_cast_ne_zero hne
  field_simp

lemma meanQ_z (l : List ℚ) (σ : ℚ) (hne : l ≠ []) :
    meanQ (l.map fun x => (x - meanQ l) / σ) = 0 := by
  have h1 : (l.map fun x => (x - meanQ l) / σ)
      = (l.map fun x => x - meanQ l).map fun y => y / σ := by
    rw [List.map_map]
    rfl
  rw [meanQ, h1, sum_map_div, sum_map_center l hne, zero_div, zero_div]

lemma varQ_z (l : List ℚ) (σ : ℚ) (hne : l ≠ []) (hσ2 : σ ^ 2 = varQ l)
    (hv : 0 < varQ l) :
    varQ (l.map fun x => (x - meanQ l) / σ) = 1 := by
  have hn := length_cast_ne_zero hne
  have hv0 : varQ l ≠ 0 := ne_of_gt hv
  have hσ0 : σ ≠ 0 := by
    intro h
    rw [h] at hσ2
    exact hv0 (by simpa using hσ2.symm)
  rw [varQ, meanQ_z l σ hne]
  simp only [sub_zero, List.map_map, List.length_map]
  have h2 : ((fun v => v ^ 2) ∘ fun x => (x - meanQ l) / σ)
      = fun x => (x - meanQ l) ^ 2 / σ ^ 2 := by
    funext x
    simp [div_pow]
  rw [h2]
  have h3 : (l.map fun x => (x - meanQ l) ^ 2 / σ ^ 2).sum
      = (l.map fun x => (x - meanQ l) ^ 2).sum / σ ^ 2 := by
    have h4 := sum_map_div (l.map fun x => (x - meanQ l) ^ 2) (σ ^ 2)
    rw [List.map_map] at h4
    exact h4
  rw [h3, hσ2]
  have hS : (l.map fun x => (x - meanQ l) ^ 2).sum = varQ l * l.length := by
    rw [varQ]
    field_simp
  rw [hS]
  field_simp

lemma filterMap_zmap (rows : List AdvRow) (g : AdvRow → Option ℚ) (f : ℚ → ℚ) :
    (rows.filterMap fun r => (g r).map f) = (rows.filterMap g).map f := by
  induction rows with
  | nil => rfl
  | cons r t ih => cases hg : g r <;> simp [List.filterMap_cons, hg, ih]

lemma filterMap_z_getter (A : GroupStatsQ) (D : GroupStatsJ) (rows : List AdvRow)
    (zg ng : AdvRow → Option ℚ)
    (hg : ∀ r, zg (applyRowZ A D r) = (ng r).map fun v => (v - A.mean) / A.stdDev) :
    (rows.map (applyRowZ A D)).filterMap zg
      = (rows.filterMap ng).map fun v => (v - A.mean) / A.stdDev := by
  rw [List.filterMap_map]
  have h : (zg ∘ applyRowZ A D) = fun r => (ng r).map fun v => (v - A.mean) / A.stdDev :=
    funext hg
  rw [h, filterMap_zmap]

lemma pooledAreaZ_apply (A : GroupStatsQ) (D : GroupStatsJ) (rows : List AdvRow) :
    pooledAreaZ (rows.map (applyRowZ A D))
      = (groupValuesQ areaGetters rows).map fun v => (v - A.mean) / A.stdDev := by
  simp only [pooledAreaZ, groupValuesQ, zscoreAreaGetters, areaGetters, List.map_cons,
    List.map_nil, List.flatten_cons, List.flatten_nil, List.append_nil, List.map_append]
  rw [filterMap_z_getter A D rows _ _ fun r => rfl,
    filterMap_z_getter A D rows _ _ fun r => rfl,
    filterMap_z_getter A D rows _ _ fun r => rfl,
    filterMap_z_getter A D rows _ _ fun r => rfl,
    filterMap_z_getter A D rows _ _ fun r => rfl]

lemma foldl_add_num (qs : List ℚ) (a : ℚ) :
    (qs.map JNum.num).foldl JNum.add (.num a) = .num (a + qs.sum) := by
  induction qs generalizing a with
  | nil => simp
  | cons q t ih =>
    simp only [List.map_cons, List.foldl_cons, JNum.add, ih, List.sum_cons,
      JNum.num.injEq]
    ring

lemma jsum_map_num (qs : List ℚ) : jsum (qs.map .num) = .num qs.sum := by
  rw [jsum, foldl_add_num, zero_add]

lemma jmean_map_num (qs : List ℚ) : jmean (qs.map .num) = .num (meanQ qs) := by
  rw [jmean, jsum_map_num, List.length_map, meanQ, JNum.div]

lemma jvar_map_num (qs : List ℚ) : jvar (qs.map .num) = .num (varQ qs) := by
  rw [jvar, jmean_map_num]
  have h1 : ((qs.map JNum.num).map fun v => (v.sub (JNum.num (meanQ qs))).sq)
      = (qs.map fun q => (q - meanQ qs) ^ 2).map JNum.num := by
    rw [List.map_map, List.map_map]
    rfl
  rw [h1, jsum_map_num, List.length_map, JNum.div, varQ]

lemma jnumsQ_map_num (qs : List ℚ) : jnumsQ (qs.map .num) = qs := by
  induction qs with
  | nil => rfl
  | cons q t ih =>
    simp only [List.map_cons, jnumsQ, List.filterMap_cons]
    simp only [jnumsQ] at ih
    rw [ih]

lemma exists_map_num {l : List JNum} (h : ∀ x ∈ l, x.isNum = true) :
    ∃ qs : List ℚ, l = qs.map .num := by
  induction l with
  | nil => exact ⟨[], rfl⟩
  | cons x t ih =>
    obtain ⟨qs, hqs⟩ := ih fun y hy => h y (List.mem_cons_of_mem _ hy)
    cases x with
    | num q => exact ⟨q :: qs, by simp [hqs]⟩
    | nan => simpa [JNum.isNum] using h .nan (List.mem_cons_self _ _)

lemma jnumsQ_cons_num (q : ℚ) (l : List JNum) :
    jnumsQ (JNum.num q :: l) = q :: jnumsQ l := rfl

lemma filterMap_collect (μ σ : ℚ) (rows : List AdvRow) (g : AdvRow → Option JNum)
    (hnum : ∀ x ∈ rows.filterMap g, x.isNum = true) :
    (rows.filterMap fun r => collectNum ((g r).map fun v =>
        (v.sub (.num μ)).div (.num σ)))
      = (jnumsQ (rows.filterMap g)).map fun q => (q - μ) / σ := by
  induction rows with
  | nil => rfl
  | cons r t ih =>
    cases hg : g r with
    | none =>
      have ht : ∀ x ∈ t.filterMap g, x.isNum = true := fun y hy =>
        hnum y (by simp [List.filterMap_cons, hg, hy])
      rw [List.filterMap_cons_none (f := fun r => collectNum ((g r).map fun v =>
            (v.sub (.num μ)).div (.num σ))) (by simp [hg, collectNum]),
        List.filterMap_cons_none (f := g) hg]
      exact ih ht
    | some x =>
      have hx : x.isNum = true := hnum x (by simp [List.filterMap_cons, hg])
      have ht : ∀ y ∈ t.filterMap g, y.isNum = true := fun y hy =>
        hnum y (by simp [List.filterMap_cons, hg, hy])
      cases x with
      | nan => simp [JNum.isNum] at hx
      | num q =>
        rw [List.filterMap_cons_some (f := fun r => collectNum ((g r).map fun v =>
              (v.sub (.num μ)).div (.num σ))) (b := (q - μ) / σ)
            (by simp [hg, collectNum, JNum.sub, JNum.div]),
          List.filterMap_cons_some (f := g) hg, jnumsQ_cons_num, List.map_cons, ih ht]

lemma pooledDistZ_apply (A : GroupStatsQ) (μ σ : ℚ) (rows : List AdvRow)
    (h1 : ∀ x ∈ rows.filterMap (fun r => r.normalized_hyoid_c4_distance),
        x.isNum = true)
    (h2 : ∀ x ∈ rows.filterMap (fun r => r.normalized_ues_length), x.isNum = true) :
    pooledDistZ (rows.map (applyRowZ A ⟨.num μ, .num σ⟩))
      = (jnumsQ (groupValuesJ distanceGetters rows)).map fun q => (q - μ) / σ := by
  simp only [pooledDistZ, zscoreDistGetters, List.map_cons, List.map_nil,
    List.flatten_cons, List.flatten_nil, List.append_nil]
  rw [List.filterMap_map, List.filterMap_map]
  have e1 : ((fun r => collectNum (r.zscore_hyoid_c4_distance))
        ∘ applyRowZ A ⟨.num μ, .num σ⟩)
      = fun r => collectNum ((r.normalized_hyoid_c4_distance).map fun v =>
          (v.sub (.num μ)).div (.num σ)) := rfl
  have e2 : ((fun r => collectNum (r.zscore_ues_length))
        ∘ applyRowZ A ⟨.num μ, .num σ⟩)
      = fun r => collectNum ((r.normalized_ues_length).map fun v =>
          (v.sub (.num μ)).div (.num σ)) := rfl
  rw [e1, e2, filterMap_collect μ σ rows _ h1, filterMap_collect μ σ rows _ h2]
  simp only [groupValuesJ, distanceGetters, List.map_cons, List.map_nil,
    List.flatten_cons, List.flatten_nil, List.append_nil, jnumsQ,
    List.filterMap_append, List.map_append]

/-- C8 (amended).  Provided each group's pooled normalized values contain
no `NaN` and have strictly positive population variance, grouped
standardization normalizes both groups: the pooled standardized area
values have mean 0 and population variance 1, and likewise the pooled
standardized distance values.  (`sqrtQ` stands for `Math.sqrt`; the
hypotheses state its defining properties at the two variances where the
code evaluates it.) -/
theorem grouped_standardization_normalizes (sqrtQ : ℚ → ℚ) (rows : List AdvRow)
    (hAv : 0 < varQ (groupValuesQ areaGetters rows))
    (hAs : 0 ≤ sqrtQ (varQ (groupValuesQ areaGetters rows)))
    (hAsq : sqrtQ (varQ (groupValuesQ areaGetters rows)) ^ 2
        = varQ (groupValuesQ areaGetters rows))
    (hDnum : ∀ x ∈ groupValuesJ distanceGetters rows, x.isNum = true)
    (hDv : 0 < varQ (jnumsQ (groupValuesJ distanceGetters rows)))
    (hDs : 0 ≤ sqrtQ (varQ (jnumsQ (groupValuesJ distanceGetters rows))))
    (hDsq : sqrtQ (varQ (jnumsQ (groupValuesJ distanceGetters rows))) ^ 2
        = varQ (jnumsQ (groupValuesJ distanceGetters rows))) :
    meanQ (pooledAreaZ (rows.map (applyRowZ
      (calculateGroupZScoreQ sqrtQ areaGetters rows)
      (calculateGroupZScoreJ sqrtQ distanceGetters rows)))) = 0 ∧
    varQ (pooledAreaZ (rows.map (applyRowZ
      (calculateGroupZScoreQ sqrtQ areaGetters rows)
      (calculateGroupZScoreJ sqrtQ distanceGetters rows)))) = 1 ∧
    meanQ (pooledDistZ (rows.map (applyRowZ
      (calculateGroupZScoreQ sqrtQ areaGetters rows)
      (calculateGroupZScoreJ sqrtQ distanceGetters rows)))) = 0 ∧
    varQ (pooledDistZ (rows.map (applyRowZ
      (calculateGroupZScoreQ sqrtQ areaGetters rows)
      (calculateGroupZScoreJ sqrtQ distanceGetters rows)))) = 1 := by
  have hAne : groupValuesQ areaGetters rows ≠ [] := by
    intro h
    rw [h, varQ_nil] at hAv
    exact lt_irrefl 0 hAv
  have hsA : 0 < sqrtQ (varQ (groupValuesQ areaGetters rows)) := by
    rcases lt_or_eq_of_le hAs with h | h
    · exact h
    · exfalso
      rw [← h] at hAsq
      rw [← hAsq] at hAv
      simp at hAv
  have hA : calculateGroupZScoreQ sqrtQ areaGetters rows
      = ⟨meanQ (groupValuesQ areaGetters rows),
         sqrtQ (varQ (groupValuesQ areaGetters rows))⟩ := by
    rw [calculateGroupZScoreQ, if_neg (by simpa [List.isEmpty_iff] using hAne)]
    dsimp only
    rw [if_pos hsA]
  obtain ⟨qs, hqs⟩ := exists_map_num hDnum
  have hqs2 : jnumsQ (groupValuesJ distanceGetters rows) = qs := by
    rw [hqs, jnumsQ_map_num]
  rw [hqs2] at hDv hDs hDsq
  have hqne : qs ≠ [] := by
    intro h
    rw [h, varQ_nil] at hDv
    exact lt_irrefl 0 hDv
  have hgne : ¬(groupValuesJ distanceGetters rows).isEmpty := by
    rw [hqs]
    simp [List.isEmpty_iff]
    simpa using hqne
  have hsD : 0 < sqrtQ (varQ qs) := by
    rcases lt_or_eq_of_le hDs with h | h
    · exact h
    · exfalso
      rw [← h] at hDsq
      rw [← hDsq] at hDv
      simp at hDv
  have hD : calculateGroupZScoreJ sqrtQ distanceGetters rows
      = ⟨.num (meanQ qs), .num (sqrtQ (varQ qs))⟩ := by
    rw [calculateGroupZScoreJ, if_neg hgne]
    dsimp only
    rw [hqs, jmean_map_num, jvar_map_num, JNum.sqrtJ]
    rw [if_neg (not_lt.2 (le_of_lt hDv))]
    have hgt : (JNum.num (sqrtQ (varQ qs))).gtq 0 = true := by
      simp [JNum.gtq, JNum.gt, hsD]
    rw [if_pos hgt]
  have hdist1 : ∀ x ∈ rows.filterMap (fun r => r.normalized_hyoid_c4_distance),
      x.isNum = true := by
    intro x hx
    apply hDnum
    simp only [groupValuesJ, distanceGetters, List.map_cons, List.map_nil,
      List.flatten_cons, List.flatten_nil, List.append_nil, List.mem_append]
    exact Or.inl hx
  have hdist2 : ∀ x ∈ rows.filterMap (fun r => r.normalized_ues_length),
      x.isNum = true := by
    intro x hx
    apply hDnum
    simp only [groupValuesJ, distanceGetters, List.map_cons, List.map_nil,
      List.flatten_cons, List.flatten_nil, List.append_nil, List.mem_append]
    exact Or.inr hx
  rw [hA, hD, pooledAreaZ_apply, pooledDistZ_apply _ _ _ rows hdist1 hdist2, hqs2]
  exact ⟨meanQ_z _ _ hAne, varQ_z _ _ hAne hAsq hAv,
    meanQ_z _ _ hqne, varQ_z _ _ hqne hDsq hDv⟩

/-- A row whose normalized values are all 0 (both groups). -/
def zRowLow : AdvRow :=
  { blankRow with
    normalized_bolus_pharynx_overlap := some 0
    normalized_bolus_vestibule_overlap := some 0
    normalized_pharynx := some 0
    normalized_vestibule := some 0
    normalized_bolus := some 0
    normalized_hyoid_c4_distance := some (.num 0)
    normalized_ues_length := some (.num 0) }

/-- A row whose normalized values are all 2 (both groups). -/
def zRowHigh : AdvRow :=
  { blankRow with
    normalized_bolus_pharynx_overlap := some 2
    normalized_bolus_vestibule_overlap := some 2
    normalized_pharynx := some 2
    normalized_vestibule := some 2
    normalized_bolus := some 2
    normalized_hyoid_c4_distance := some (.num 2)
    normalized_ues_length := some (.num 2) }

/-- Two frames whose pooled values in each group are `0`s and `2`s: both
groups have mean 1 and variance 1 (so `sqrtQ := fun _ => 1` is the real
square root at both variances). -/
def zRows : List AdvRow := [zRowLow, zRowHigh]

/-- C8 witness: on `zRows`, both groups have variance 1 and the theorem's
conclusions hold. -/
theorem grouped_standardization_normalizes_witness :
    meanQ (pooledAreaZ (zRows.map (applyRowZ
      (calculateGroupZScoreQ (fun _ => 1) areaGetters zRows)
      (calculateGroupZScoreJ (fun _ => 1) distanceGetters zRows)))) = 0 ∧
    varQ (pooledAreaZ (zRows.map (applyRowZ
      (calculateGroupZScoreQ (fun _ => 1) areaGetters zRows)
      (calculateGroupZScoreJ (fun _ => 1) distanceGetters zRows)))) = 1 ∧
    meanQ (pooledDistZ (zRows.map (applyRowZ
      (calculateGroupZScoreQ (fun _ => 1) areaGetters zRows)
      (calculateGroupZScoreJ (fun _ => 1) distanceGetters zRows)))) = 0 ∧
    varQ (pooledDistZ (zRows.map (applyRowZ
      (calculateGroupZScoreQ (fun _ => 1) areaGetters zRows)
      (calculateGroupZScoreJ (fun _ => 1) distanceGetters zRows)))) = 1 :=
  grouped_standardization_normalizes (fun _ => 1) zRows (by decide) (by decide)
    (by decide) (by decide) (by decide) (by decide) (by decide)

/-- One frame whose five normalized area values all equal 3 (a constant,
zero-variance area group; no distance values). -/
def constRows : List AdvRow :=
  [{ blankRow with
      normalized_bolus_pharynx_overlap := some 3
      normalized_bolus_vestibule_overlap := some 3
      normalized_pharynx := some 3
      normalized_vestibule := some 3
      normalized_bolus := some 3 }]

/-- C8 counterexample.  A constant area group has variance 0: the code
floors the standard deviation to 1 (`Math.sqrt 0 = 0`, and `fun _ => 0`
agrees with the real square root at 0, the only point evaluated), so every
standardized value is 0 and the pooled standard deviation of the
standardized values is 0, not 1 as the claim states. -/
theorem grouped_standardization_degenerate_counterexample :
    varQ (groupValuesQ areaGetters constRows) = 0 ∧
    varQ (pooledAreaZ (constRows.map (applyRowZ
      (calculateGroupZScoreQ (fun _ => 0) areaGetters constRows)
      (calculateGroupZScoreJ (fun _ => 0) distanceGetters constRows)))) = 0 ∧
    (0 : ℚ) ≠ 1 := by decide

end VFSS
